import Mathlib

/-!
Verification of the metric deduplication / flattening engine of
`packages/@aws-cdk/aws-cloudwatch/lib/metric-util.ts`.

The TypeScript source is shallowly embedded:

* A metric's `MetricConfig` (exactly one of `metricStat` / `mathExpression`,
  plus `renderingProperties`) is the mutual inductive `Metric` / `UsingMetrics`;
  the "exactly one variant" invariant of `dispatchMetric` is made
  unrepresentable, as only well-formed configurations reach this code.
  `usingMetrics` (a JavaScript object, i.e. an insertion-ordered string-keyed
  record) is embedded as the ordered association sequence `UsingMetrics`.
* JavaScript objects and `Map`s are association lists with first-match lookup
  and overwrite-in-place update (`jsMapGet` / `jsMapSet`); JavaScript string
  truthiness (`undefined` and `""` are falsy) is `strTruthy`.
* Thrown exceptions are `Except String`.
* Durations are their value in seconds (`toSeconds`); a present `Duration`
  object is always truthy regardless of its value.
-/

/-- JavaScript string truthiness of an optional string: `undefined` and the
empty string are falsy. -/
def strTruthy : Option String → Bool
  | none => false
  | some s => !(s == "")

/-- First-match lookup in a JavaScript object / `Map` viewed as an ordered
association list. -/
def jsMapGet {α : Type} (o : List (String × α)) (k : String) : Option α :=
  (o.find? (fun p => p.1 == k)).map (·.2)

/-- Overwrite-in-place update of a JavaScript object / `Map`: an existing key
keeps its position, a new key is appended. -/
def jsMapSet {α : Type} (o : List (String × α)) (k : String) (v : α) :
    List (String × α) :=
  if o.any (fun p => p.1 == k) then
    o.map (fun p => if p.1 == k then (k, v) else p)
  else
    o ++ [(k, v)]

/-- A JavaScript value as it occurs in rendered graph options. -/
inductive JsVal where
  | undefined
  | str (s : String)
  | num (n : Nat)
  | bool (b : Bool)
deriving DecidableEq, Repr

/-- A JavaScript object holding rendered graph options. -/
abbrev JsObj := List (String × JsVal)

/-- JavaScript truthiness of a `JsVal`. -/
def jsTruthy : JsVal → Bool
  | .undefined => false
  | .str s => !(s == "")
  | .num n => !(n == 0)
  | .bool b => b

/-- Property read on a JavaScript object: a missing property reads as
`undefined`. -/
def jsGetVal (o : JsObj) (k : String) : JsVal :=
  match jsMapGet o k with
  | some v => v
  | none => .undefined

/-- Whether a JavaScript object has the given own property. -/
def jsHas (o : JsObj) (k : String) : Bool :=
  o.any (fun p => p.1 == k)

/-- `dropUndefined` of the source: keep exactly the properties whose value is
not `undefined`. -/
def dropUndefined (x : JsObj) : JsObj :=
  x.filter (fun p => !(p.2 == JsVal.undefined))

/-- `MetricStatConfig`: the statistic-reference variant of a metric
configuration.  `dimensions` is the ordered list of (name, value) pairs;
`period` is the duration in seconds (`none` embeds an absent duration
object). -/
structure MetricStatConfig where
  «namespace» : String
  metricName : String
  dimensions : List (String × String)
  statistic : Option String
  period : Option Nat
  region : Option String
  account : Option String
deriving DecidableEq, Repr

mutual
/-- A metric configuration: exactly one of a statistic reference or a math
expression, together with its (cosmetic) rendering properties. -/
inductive Metric where
  | stat (conf : MetricStatConfig) (renderingProperties : JsObj)
  | mathExpr (expression : String) (usingMetrics : UsingMetrics)
      (renderingProperties : JsObj)

/-- The `usingMetrics` record of a math expression: an insertion-ordered
sequence of (identifier, metric) bindings.  JavaScript object keys are
distinct; the embedding keeps the sequence shape. -/
inductive UsingMetrics where
  | nil
  | cons (id : String) (m : Metric) (rest : UsingMetrics)
end

instance : Inhabited Metric :=
  ⟨.stat ⟨"", "", [], none, none, none, none⟩ []⟩

/-- The identifiers bound by a `usingMetrics` record, in insertion order
(`Object.keys`). -/
def UsingMetrics.keys : UsingMetrics → List String
  | .nil => []
  | .cons i _ rest => i :: rest.keys

/-- The (identifier, metric) bindings of a `usingMetrics` record, in insertion
order (`Object.entries`). -/
def UsingMetrics.toList : UsingMetrics → List (String × Metric)
  | .nil => []
  | .cons i m rest => (i, m) :: rest.toList

/-- First-match lookup of an identifier in a `usingMetrics` record
(property read `usingMetrics[id]`). -/
def UsingMetrics.get? : UsingMetrics → String → Option Metric
  | .nil, _ => none
  | .cons i m rest, k => if i == k then some m else rest.get? k

/-- The key part contributed by the period: the decimal seconds when a
duration object is present (a present duration is always truthy). -/
def periodSeg : Option Nat → List String
  | some p => [toString p]
  | none => []

/-- `Array.prototype.join('|')` of the key parts. -/
def joinParts : List String → String
  | [] => ""
  | [p] => p
  | p :: q :: rest => p ++ "|" ++ joinParts (q :: rest)

/-- The key parts contributed by a statistic reference: namespace, metric
name, the dimension names and values in order, then statistic, period,
region and account, each only when truthy (a present duration object is
always truthy). -/
def statParts (c : MetricStatConfig) : List String :=
  [c.«namespace», c.metricName]
    ++ c.dimensions.flatMap (fun d => [d.1, d.2])
    ++ (if strTruthy c.statistic then [c.statistic.getD ""] else [])
    ++ periodSeg c.period
    ++ (if strTruthy c.region then [c.region.getD ""] else [])
    ++ (if strTruthy c.account then [c.account.getD ""] else [])

mutual
/-- `metricKey` of the source: the structural identity string of a metric.
For an expression the source sorts `Object.keys(usingMetrics)` and emits
each identifier followed by the recursively computed key of the metric it
refers to; since JavaScript object keys are distinct, this equals the
stable sort of the (identifier, recursive key) pairs by identifier, which
is the form used here.  The `Symbol`-based cache of the source is a pure
memoization and is not part of the embedded function. -/
def metricKey : Metric → String
  | .stat c _ => joinParts (statParts c)
  | .mathExpr e u _ =>
      joinParts (e :: ((metricKeyPairs u).mergeSort
          (fun a b => a.1 ≤ b.1)).flatMap (fun p => [p.1, p.2]))

/-- The (identifier, recursive key) pairs of a `usingMetrics` record, in
insertion order. -/
def metricKeyPairs : UsingMetrics → List (String × String)
  | .nil => []
  | .cons i m rest => (i, metricKey m) :: metricKeyPairs rest
end

/-- One row of `MetricSet`: the metric, the optional tag added when the
metric was registered top-level, and the optional identifier it is bound
to. -/
structure MetricEntry where
  metric : Metric
  tag : Option String
  id : Option String

/-- `MetricSet<A>` at `A = String`: the ordered entry rows plus the two
reconciliation indices.  The source's indices hold references to the shared
mutable entry objects; the embedding stores the entry's position in
`metrics`. -/
structure MetricSet where
  metrics : List MetricEntry
  metricById : List (String × Nat)
  metricByKey : List (String × Nat)

/-- The empty `MetricSet` (`new MetricSet()`). -/
def MetricSet.empty : MetricSet := ⟨[], [], []⟩

/-- The entry object an index refers to (indices produced by the engine are
always in range; the default is never reached from reachable states). -/
def MetricSet.entryAt (s : MetricSet) (j : Nat) : MetricEntry :=
  s.metrics.getD j ⟨default, none, none⟩

/-- The "try lookup existing by id if we have one" step of `addOne`: throws
the defensive "Can't happen" error of the source when the supplied
identifier is already bound to an entry whose structural key differs. -/
def MetricSet.lookupById (s : MetricSet) (key : String) (id : Option String) :
    Except String (Option Nat) :=
  if strTruthy id then
    match jsMapGet s.metricById (id.getD "") with
    | some j =>
        if metricKey (s.entryAt j).metric ≠ key then
          throw "Can't happen, already checked elsewhere"
        else
          pure (some j)
    | none => pure none
  else
    pure none

/-- The "try lookup by metric" step of `addOne`: if the entry found by
structural key already has an id and we are also supplying one, the two ids
must differ, so pretend we didn't find one. -/
def MetricSet.lookupByKey (s : MetricSet) (key : String) (id : Option String) :
    Option Nat :=
  match jsMapGet s.metricByKey key with
  | some j =>
      if strTruthy (s.entryAt j).id ∧ strTruthy id then none
      else some j
  | none => none

/-- The "create a new entry" step of `addOne`: append a fresh entry and index
it by structural key. -/
def MetricSet.pushEntry (s : MetricSet) (metric : Metric) : MetricSet :=
  { s with
      metrics := s.metrics ++ [MetricEntry.mk metric none none],
      metricByKey := jsMapSet s.metricByKey (metricKey metric)
        s.metrics.length }

/-- The "if it didn't have an id but now we do, add one" step of `addOne`. -/
def MetricSet.bindId (s : MetricSet) (j : Nat) (id : Option String) :
    MetricSet :=
  let e := s.entryAt j
  if ¬ strTruthy e.id ∧ strTruthy id then
    { s with
        metrics := s.metrics.set j { e with id := id },
        metricById := jsMapSet s.metricById (id.getD "") j }
  else s

/-- The "if it didn't have a tag but now we do, add one" step of `addOne`. -/
def MetricSet.bindTag (s : MetricSet) (j : Nat) (tag : Option String) :
    MetricSet :=
  let e := s.entryAt j
  if ¬ strTruthy e.tag ∧ strTruthy tag then
    { s with metrics := s.metrics.set j { e with tag := tag } }
  else s

/-- The non-recursive part of `MetricSet.addOne` (the source's lines before
the recursion into `usingMetrics`): resolve the entry this registration
lands on, create it if needed, then bind the identifier and the tag if the
entry still lacks them. -/
def MetricSet.resolveEntry (s : MetricSet) (metric : Metric)
    (tag id : Option String) : Except String MetricSet := do
  let key := metricKey metric
  let byId ← s.lookupById key id
  let found : Option Nat :=
    match byId with
    | some j => some j
    | none => s.lookupByKey key id
  let (s₁, j) :=
    match found with
    | some j => (s, j)
    | none => (s.pushEntry metric, s.metrics.length)
  pure ((s₁.bindId j id).bindTag j tag)

mutual
/-- `MetricSet.addOne`: resolve the entry, then recurse into the
`usingMetrics` children of a math expression, each child registered under
its identifier and without a tag. -/
def MetricSet.addOne (s : MetricSet) (metric : Metric)
    (tag id : Option String) : Except String MetricSet := do
  let s₁ ← s.resolveEntry metric tag id
  match metric with
  | .stat _ _ => pure s₁
  | .mathExpr _ u _ => MetricSet.addChildren s₁ u

/-- The recursion of `addOne` over the `usingMetrics` entries, threading the
set. -/
def MetricSet.addChildren (s : MetricSet) : UsingMetrics →
    Except String MetricSet
  | .nil => pure s
  | .cons subId subMetric rest => do
      let s₁ ← MetricSet.addOne s subMetric none (some subId)
      MetricSet.addChildren s₁ rest
end

/-- `MetricSet.addTopLevel`: register each metric as a root with the given
tag. -/
def MetricSet.addTopLevel (s : MetricSet) (tag : String)
    (metrics : List Metric) : Except String MetricSet :=
  metrics.foldlM (fun s m => MetricSet.addOne s m (some tag) none) s

/-- Modelled from the spec: the human-readable string form of a metric
(the source calls `metric.toString()`, defined outside this file in
`metric.ts`); for a math expression it renders the expression.  Only the
auto-label value depends on it; no claim constrains its content. -/
def metricToString : Metric → String
  | .stat c _ => c.metricName
  | .mathExpr e _ _ => e

/-- The conflict error thrown by `validateNoIdConflicts`. -/
def conflictMessage (id : String) (subMetric existing : Metric) : String :=
  "The ID '" ++ id ++ "' used for two metrics in the expression: '"
    ++ metricToString subMetric ++ "' and '" ++ metricToString existing
    ++ "'. Rename one."

mutual
/-- The `visit` closure of `validateNoIdConflicts`, with the shared mutable
`seen` map threaded explicitly.  A statistic reference contributes nothing;
an expression checks each binding against `seen`, records it, and recurses
into the bound metric before moving to the next binding. -/
def validateVisit (seen : List (String × Metric)) : Metric →
    Except String (List (String × Metric))
  | .stat _ _ => pure seen
  | .mathExpr _ u _ => validateFold seen u

/-- The `for (const [id, subMetric] of Object.entries(expr.usingMetrics))`
loop of `validateNoIdConflicts`. -/
def validateFold (seen : List (String × Metric)) : UsingMetrics →
    Except String (List (String × Metric))
  | .nil => pure seen
  | .cons id subMetric rest => do
      let seen₁ ←
        match jsMapGet seen id with
        | some existing =>
            if metricKey existing ≠ metricKey subMetric then
              throw (conflictMessage id subMetric existing)
            else
              pure (jsMapSet seen id subMetric)
        | none => pure (jsMapSet seen id subMetric)
      let seen₂ ← validateVisit seen₁ subMetric
      validateFold seen₂ rest
end

/-- `validateNoIdConflicts`: check one expression tree for identifiers bound
to structurally different metrics. -/
def validateNoIdConflicts (expression : Metric) : Except String Unit := do
  let _ ← validateVisit [] expression
  pure ()

/-- The rendering properties of a metric's configuration. -/
def Metric.renderingProperties : Metric → JsObj
  | .stat _ rp => rp
  | .mathExpr _ _ rp => rp

/-- `undefined`-aware embedding of an optional string assigned to an options
property (`options.yAxis = yAxis` assigns `undefined` when the tag is
absent). -/
def optStrVal : Option String → JsVal
  | none => .undefined
  | some s => .str s

/-- The `withStat` branch of `metricGraphJson`'s option assembly: account,
region, non-default period, non-default statistic. -/
def statRenderOptions (s : MetricStatConfig) (options : JsObj) : JsObj :=
  let o := if strTruthy s.account then
      jsMapSet options "accountId" (.str (s.account.getD "")) else options
  let o := if strTruthy s.region then
      jsMapSet o "region" (.str (s.region.getD "")) else o
  let o :=
    match s.period with
    | some p => if p ≠ 300 then jsMapSet o "period" (.num p) else o
    | none => o
  let o :=
    if strTruthy s.statistic ∧ s.statistic.getD "" ≠ "Average" then
      jsMapSet o "stat" (.str (s.statistic.getD "")) else o
  o

/-- The tail of `metricGraphJson`'s option assembly: visibility, axis, id
and the auto-label for visible unlabeled expressions. -/
def axisIdLabelOptions (metric : Metric) (yAxis id : Option String)
    (options : JsObj) : JsObj :=
  let options :=
    if ¬ strTruthy yAxis then jsMapSet options "visible" (.bool false)
    else options
  let options :=
    if yAxis ≠ some "left" then jsMapSet options "yAxis" (optStrVal yAxis)
    else options
  let options :=
    if strTruthy id then jsMapSet options "id" (.str (id.getD "")) else options
  let options :=
    if jsGetVal options "visible" ≠ .bool false
        ∧ jsTruthy (jsGetVal options "expression")
        ∧ ¬ jsTruthy (jsGetVal options "label") then
      jsMapSet options "label" (.str (metricToString metric))
    else options
  options

/-- The options object of `metricGraphJson` after `dropUndefined`: start from
the rendering properties, add the per-variant options, then the
visibility / axis / id / auto-label options. -/
def metricGraphOptions (metric : Metric) (yAxis id : Option String) : JsObj :=
  dropUndefined (axisIdLabelOptions metric yAxis id
    (match metric with
     | .stat s _ => statRenderOptions s metric.renderingProperties
     | .mathExpr e _ _ =>
        jsMapSet metric.renderingProperties "expression" (.str e)))

/-- One token of a rendered row: a string or the trailing options object. -/
inductive GraphToken where
  | str (s : String)
  | opts (o : JsObj)
deriving DecidableEq, Repr

/-- The leading tokens of a statistic reference's row: namespace, metric
name, then each dimension name and value in order. -/
def statTokens (s : MetricStatConfig) : List GraphToken :=
  [.str s.«namespace», .str s.metricName]
    ++ s.dimensions.flatMap (fun d => [.str d.1, .str d.2])

/-- `metricGraphJson`: the rendered row of one entry; an empty options object
is omitted from the token sequence. -/
def metricGraphJson (metric : Metric) (yAxis id : Option String) :
    List GraphToken :=
  let ret :=
    match metric with
    | .stat s _ => statTokens s
    | .mathExpr _ _ _ => []
  let renderedOpts := metricGraphOptions metric yAxis id
  ret ++ (if renderedOpts.isEmpty then [] else [.opts renderedOpts])

/-- `allMetricsGraphJson`: build one set from the two axes and render every
entry in first-encountered order. -/
def allMetricsGraphJson (left right : List Metric) :
    Except String (List (List GraphToken)) := do
  let mset ← MetricSet.empty.addTopLevel "left" left
  let mset ← mset.addTopLevel "right" right
  pure (mset.metrics.map (fun entry =>
    metricGraphJson entry.metric entry.tag entry.id))

/-! ### Derived notions used to state the claims -/

mutual
/-- Every (identifier, metric) binding occurring anywhere in a metric's
expression tree, at any depth, in depth-first pre-order (the traversal
order of `validateNoIdConflicts`). -/
def Metric.bindings : Metric → List (String × Metric)
  | .stat _ _ => []
  | .mathExpr _ u _ => UsingMetrics.bindings u

/-- The bindings of a `usingMetrics` record and, recursively, of the metrics
it refers to. -/
def UsingMetrics.bindings : UsingMetrics → List (String × Metric)
  | .nil => []
  | .cons i m rest =>
      (i, m) :: (Metric.bindings m ++ UsingMetrics.bindings rest)
end

/-- No identifier is bound, anywhere in the tree, to two metrics whose
structural keys differ (identifiers scoped globally across the tree). -/
def Metric.noIdConflict (metric : Metric) : Prop :=
  ∀ i a b, (i, a) ∈ metric.bindings → (i, b) ∈ metric.bindings →
    metricKey a = metricKey b

/-- The bookkeeping carried along a successful stretch of the
`validateNoIdConflicts` traversal which processes the bindings `bs` while
turning the `seen` map into `seen'`: the processed bindings are pairwise
key-compatible and compatible with `seen`, every entry of `seen'` stems
from `seen` or from `bs`, every processed identifier ends up in `seen'`
with a key-equal metric, and `seen` entries survive up to key equality. -/
def ValidStep (seen seen' bs : List (String × Metric)) : Prop :=
  (∀ i a b, (i, a) ∈ bs → (i, b) ∈ bs → metricKey a = metricKey b)
  ∧ (∀ i a b, jsMapGet seen i = some a → (i, b) ∈ bs →
      metricKey a = metricKey b)
  ∧ (∀ i a, jsMapGet seen' i = some a →
      jsMapGet seen i = some a ∨ (i, a) ∈ bs)
  ∧ (∀ i b, (i, b) ∈ bs →
      ∃ a, jsMapGet seen' i = some a ∧ metricKey a = metricKey b)
  ∧ (∀ i a, jsMapGet seen i = some a →
      ∃ a', jsMapGet seen' i = some a' ∧ metricKey a' = metricKey a)

mutual
/-- Erase the rendering properties everywhere in a metric; two metrics with
the same erasure have equal structural content. -/
def Metric.stripRendering : Metric → Metric
  | .stat c _ => .stat c []
  | .mathExpr e u _ => .mathExpr e u.stripRendering []

/-- `stripRendering` over a `usingMetrics` record. -/
def UsingMetrics.stripRendering : UsingMetrics → UsingMetrics
  | .nil => .nil
  | .cons i m rest => .cons i m.stripRendering rest.stripRendering
end

/-- Lookup of an identifier in a `usingMetrics` record with the (never
relevant) default for a missing identifier: `usingMetrics[id]` for an
`id` drawn from `Object.keys(usingMetrics)`. -/
def UsingMetrics.getD (u : UsingMetrics) (k : String) : Metric :=
  (u.get? k).getD default

/-- The error component of an `Except` result. -/
def exceptError {ε α : Type} : Except ε α → Option ε
  | .error e => some e
  | .ok _ => none

/-! ### Concrete instances used by counterexamples and witnesses -/

/-- A plain stat ref configuration: AWS/EC2 CPUUtilization for instance
i-1, everything else defaulted. -/
def statAConf : MetricStatConfig :=
  ⟨"AWS/EC2", "CPUUtilization", [("InstanceId", "i-1")],
    none, none, none, none⟩

/-- The metric over `statAConf`. -/
def statA : Metric := .stat statAConf []

/-- A second stat ref configuration with a different structural key. -/
def statBConf : MetricStatConfig :=
  ⟨"AWS/S3", "BucketSizeBytes", [], none, none, none, none⟩

/-- The metric over `statBConf`. -/
def statB : Metric := .stat statBConf []

/-- A stat ref whose single dimension pair (Sum, 300) contributes the same
key parts as `statKeyTwinConf`'s statistic and period. -/
def statDimPairConf : MetricStatConfig :=
  ⟨"n", "m", [("Sum", "300")], none, none, none, none⟩

/-- A stat ref with statistic Sum and period 300 s and no dimensions: its
key collides with `statDimPairConf`'s. -/
def statKeyTwinConf : MetricStatConfig :=
  ⟨"n", "m", [], some "Sum", some 300, none, none⟩

/-- A stat ref whose namespace contains the separator character. -/
def statPipeNsConf : MetricStatConfig :=
  ⟨"a|b", "c", [], none, none, none, none⟩

/-- A stat ref whose metric name contains the separator character: its key
collides with `statPipeNsConf`'s. -/
def statPipeNameConf : MetricStatConfig :=
  ⟨"a", "b|c", [], none, none, none, none⟩

/-- An expression binding "x" to `statA`. -/
def exprXA : Metric := .mathExpr "x1" (.cons "x" statA .nil) []

/-- An expression binding "x" to `statB`: conflicts with `exprXA` on "x". -/
def exprXB : Metric := .mathExpr "x2" (.cons "x" statB .nil) []

/-- An expression with an internal conflict: "x" bound to `statA` at the top
and to `statB` one level deeper. -/
def exprConflict : Metric :=
  .mathExpr "x + y"
    (.cons "x" statA (.cons "y" (.mathExpr "z" (.cons "x" statB .nil) [])
      .nil)) []

/-- An expression metric that binds "m1" to `statA`: the expression of the
dedup scenario. -/
def exprM1A : Metric := .mathExpr "m1 + 1" (.cons "m1" statA .nil) []

/-- An expression binding "m1" to a key-colliding stat and nothing else. -/
def exprC1Throw : Metric :=
  .mathExpr "E" (.cons "m1"
    (.stat ⟨"e", "m1", [("n", "m")], none, none, none, none⟩ []) .nil) []

/-- The expression metric `mathExpr "e" {m1 ↦ n|m}` whose key collides with
the stat ref bound inside `exprC1Throw`. -/
def exprC1M : Metric :=
  .mathExpr "e" (.cons "m1" (.stat ⟨"n", "m", [], none, none, none, none⟩ [])
    .nil) []

/-- An expression binding two identifiers to the same (by key) metric. -/
def exprTwoIds : Metric :=
  .mathExpr "m1 + x" (.cons "m1" statA (.cons "x" statA .nil)) []

/-- Whether a string avoids the key separator character. -/
def strNoPipe (s : String) : Prop := '|' ∉ s.data

instance (s : String) : Decidable (strNoPipe s) := by
  unfold strNoPipe
  infer_instance

/-- The number of occurrences of a key in an object. -/
def jsCount {α : Type} (o : List (String × α)) (k : String) : Nat :=
  (o.filter (fun p => p.1 == k)).length

/-- A key occurs at most once in an object (JavaScript objects and `Map`s
never hold duplicate keys). -/
def jsAtMostOnce {α : Type} (o : List (String × α)) (k : String) : Prop :=
  (o.filter (fun p => p.1 == k)).length ≤ 1

/-- How one `MetricSet` state evolves into another under further
registrations: entries are only appended, an existing entry keeps its
metric object, and its identifier and tag, once truthy, are never changed
or removed. -/
def SetEvolves (s s' : MetricSet) : Prop :=
  s.metrics.length ≤ s'.metrics.length
    ∧ ∀ j, j < s.metrics.length →
        (s'.entryAt j).metric = (s.entryAt j).metric
          ∧ (strTruthy (s.entryAt j).id → (s'.entryAt j).id = (s.entryAt j).id)
          ∧ ((s.entryAt j).id = none → (s'.entryAt j).id = none
              ∨ ∃ i, (s'.entryAt j).id = some i ∧ i ≠ "")
          ∧ (strTruthy (s.entryAt j).tag →
              (s'.entryAt j).tag = (s.entryAt j).tag)

/-- The identifier bookkeeping invariant of a `MetricSet`: the id index
refers to in-range entries, maps an identifier exactly to the entries
carrying it, every carried identifier is a truthy string and is indexed,
and the key index is in range. -/
structure SetInv (s : MetricSet) : Prop where
  byId_lt : ∀ i j, jsMapGet s.metricById i = some j → j < s.metrics.length
  byId_sound : ∀ i j, jsMapGet s.metricById i = some j →
    (s.entryAt j).id = some i
  id_complete : ∀ j, j < s.metrics.length → ∀ i,
    (s.entryAt j).id = some i → jsMapGet s.metricById i = some j
  ids_truthy : ∀ j, j < s.metrics.length → ∀ i,
    (s.entryAt j).id = some i → i ≠ ""
  byKey_lt : ∀ k j, jsMapGet s.metricByKey k = some j →
    j < s.metrics.length

/-! ### Association-list toolbox -/

theorem jsMapGet_nil {α : Type} (k : String) :
    jsMapGet ([] : List (String × α)) k = none := rfl

theorem jsMapGet_cons {α : Type} (k' k : String) (v : α) (t) :
    jsMapGet ((k', v) :: t) k =
      if k' == k then some v else jsMapGet t k := by
  by_cases h : k' == k <;> simp [jsMapGet, List.find?, h]

theorem jsMapGet_eq_none_iff_any {α : Type} (o : List (String × α))
    (k : String) :
    jsMapGet o k = none ↔ o.any (fun p => p.1 == k) = false := by
  induction o with
  | nil => simp [jsMapGet]
  | cons p t ih =>
      obtain ⟨k', v'⟩ := p
      rw [jsMapGet_cons]
      by_cases h : k' == k <;> simp [h, ih]

theorem jsMapGet_mem {α : Type} {o : List (String × α)} {k : String} {v : α}
    (h : jsMapGet o k = some v) : (k, v) ∈ o := by
  induction o with
  | nil => simp [jsMapGet] at h
  | cons p t ih =>
      obtain ⟨k', v'⟩ := p
      rw [jsMapGet_cons] at h
      by_cases hk : k' == k
      · rw [if_pos hk] at h
        injection h with h
        subst h
        simp only [beq_iff_eq] at hk
        subst hk
        exact List.mem_cons_self _ _
      · rw [if_neg (by simpa using hk)] at h
        exact List.mem_cons_of_mem _ (ih h)

theorem jsMapGet_map_replace_self {α : Type} (o : List (String × α))
    (k : String) (v : α) :
    jsMapGet (o.map (fun p => if p.1 == k then (k, v) else p)) k
      = (jsMapGet o k).map (fun _ => v) := by
  induction o with
  | nil => rfl
  | cons p t ih =>
      obtain ⟨k₀, v₀⟩ := p
      simp only [List.map_cons]
      by_cases h : k₀ == k
      · have hk : k₀ = k := by simpa using h
        subst hk
        simp [jsMapGet_cons]
      · rw [if_neg h, jsMapGet_cons, jsMapGet_cons, if_neg h, if_neg h]
        exact ih

theorem jsMapGet_map_replace_ne {α : Type} (o : List (String × α))
    {k k' : String} (v : α) (h : k' ≠ k) :
    jsMapGet (o.map (fun p => if p.1 == k then (k, v) else p)) k'
      = jsMapGet o k' := by
  induction o with
  | nil => rfl
  | cons p t ih =>
      obtain ⟨k₀, v₀⟩ := p
      simp only [List.map_cons]
      by_cases hk : k₀ == k
      · have hkk : k₀ = k := by simpa using hk
        subst hkk
        rw [if_pos hk, jsMapGet_cons, jsMapGet_cons,
          if_neg (by simpa using fun hc : k₀ = k' => h hc.symm),
          if_neg (by simpa using fun hc : k₀ = k' => h hc.symm)]
        exact ih
      · rw [if_neg hk, jsMapGet_cons, jsMapGet_cons]
        by_cases hx : k₀ == k'
        · simp [hx]
        · rw [if_neg hx, if_neg hx]
          exact ih

theorem jsMapGet_append_single_self {α : Type} (o : List (String × α))
    (k : String) (v : α) (h : jsMapGet o k = none) :
    jsMapGet (o ++ [(k, v)]) k = some v := by
  induction o with
  | nil => simp [jsMapGet_cons]
  | cons p t ih =>
      obtain ⟨k₀, v₀⟩ := p
      rw [jsMapGet_cons] at h
      rw [List.cons_append, jsMapGet_cons]
      by_cases hk : k₀ == k
      · rw [if_pos hk] at h
        simp at h
      · rw [if_neg hk] at h
        rw [if_neg hk]
        exact ih h

theorem jsMapGet_append_single_ne {α : Type} (o : List (String × α))
    {k k' : String} (v : α) (h : k' ≠ k) :
    jsMapGet (o ++ [(k, v)]) k' = jsMapGet o k' := by
  induction o with
  | nil =>
      simp only [List.nil_append, jsMapGet_cons, jsMapGet_nil]
      rw [if_neg (by simpa using fun hc : k = k' => h hc.symm)]
  | cons p t ih =>
      obtain ⟨k₀, v₀⟩ := p
      rw [List.cons_append, jsMapGet_cons, jsMapGet_cons]
      by_cases hx : k₀ == k'
      · simp [hx]
      · rw [if_neg hx, if_neg hx]
        exact ih

theorem jsMapGet_jsMapSet_self {α : Type} (o : List (String × α)) (k : String)
    (v : α) : jsMapGet (jsMapSet o k v) k = some v := by
  unfold jsMapSet
  by_cases h : o.any (fun p => p.1 == k)
  · rw [if_pos h, jsMapGet_map_replace_self]
    cases hg : jsMapGet o k with
    | none => exact absurd ((jsMapGet_eq_none_iff_any o k).1 hg) (by simp [h])
    | some w => rfl
  · rw [if_neg h]
    exact jsMapGet_append_single_self o k v
      ((jsMapGet_eq_none_iff_any o k).2 (Bool.eq_false_iff.mpr h))

theorem jsMapGet_jsMapSet_ne {α : Type} (o : List (String × α))
    {k k' : String} (v : α) (h : k' ≠ k) :
    jsMapGet (jsMapSet o k v) k' = jsMapGet o k' := by
  unfold jsMapSet
  by_cases ha : o.any (fun p => p.1 == k)
  · rw [if_pos ha]
    exact jsMapGet_map_replace_ne o v h
  · rw [if_neg ha]
    exact jsMapGet_append_single_ne o v h

theorem jsHas_eq_isSome (o : JsObj) (k : String) :
    jsHas o k = (jsMapGet o k).isSome := by
  induction o with
  | nil => rfl
  | cons p t ih =>
      obtain ⟨k₀, v₀⟩ := p
      rw [jsMapGet_cons]
      by_cases h : k₀ == k <;> simp [jsHas, h, ← ih, jsHas]

theorem jsGetVal_jsMapSet_self (o : JsObj) (k : String) (v : JsVal) :
    jsGetVal (jsMapSet o k v) k = v := by
  rw [jsGetVal, jsMapGet_jsMapSet_self]

theorem jsGetVal_jsMapSet_ne (o : JsObj) {k k' : String} (v : JsVal)
    (h : k' ≠ k) : jsGetVal (jsMapSet o k v) k' = jsGetVal o k' := by
  rw [jsGetVal, jsMapGet_jsMapSet_ne o v h, jsGetVal]

theorem jsGetVal_of_not_has {o : JsObj} {k : String}
    (h : jsHas o k = false) : jsGetVal o k = .undefined := by
  rw [jsGetVal, (jsMapGet_eq_none_iff_any o k).2 h]

theorem jsHas_jsMapSet (o : JsObj) (k k' : String) (v : JsVal) :
    jsHas (jsMapSet o k v) k' = (jsHas o k' || k == k') := by
  by_cases h : k' = k
  · subst h
    rw [jsHas_eq_isSome, jsMapGet_jsMapSet_self]
    simp
  · rw [jsHas_eq_isSome, jsMapGet_jsMapSet_ne o v h, ← jsHas_eq_isSome]
    have : (k == k') = false := by
      simpa using fun hc : k = k' => h hc.symm
    simp [this]

theorem jsCount_eq_zero_of_not_has {α : Type} {o : List (String × α)}
    {k : String} (h : o.any (fun p => p.1 == k) = false) : jsCount o k = 0 := by
  unfold jsCount
  rw [List.length_eq_zero, List.filter_eq_nil_iff]
  intro p hp
  simp only [List.any_eq_false] at h
  exact fun hc => by simp [h p hp] at hc

theorem jsAtMostOnce_of_not_has {α : Type} {o : List (String × α)}
    {k : String} (h : o.any (fun p => p.1 == k) = false) : jsAtMostOnce o k := by
  unfold jsAtMostOnce
  rw [show (o.filter (fun p => p.1 == k)).length = jsCount o k from rfl,
    jsCount_eq_zero_of_not_has h]
  exact Nat.zero_le 1

theorem jsCount_map_replace {α : Type} (o : List (String × α)) (k k' : String)
    (v : α) :
    jsCount (o.map (fun p => if p.1 == k then (k, v) else p)) k'
      = jsCount o k' := by
  induction o with
  | nil => rfl
  | cons p t ih =>
      obtain ⟨k₀, v₀⟩ := p
      by_cases h : k₀ == k
      · have hk : k₀ = k := by simpa using h
        subst hk
        simp only [List.map_cons, if_pos h]
        unfold jsCount
        by_cases hx : k₀ == k'
        · simp only [List.filter_cons, hx]
          simpa [jsCount] using ih
        · simp only [List.filter_cons, hx]
          simpa [jsCount] using ih
      · simp only [List.map_cons, if_neg h]
        unfold jsCount
        by_cases hx : k₀ == k'
        · simp only [List.filter_cons, hx]
          simpa [jsCount] using ih
        · simp only [List.filter_cons, hx]
          simpa [jsCount] using ih

theorem jsAtMostOnce_jsMapSet {α : Type} {o : List (String × α)}
    {k' : String} (k : String) (v : α) (h : jsAtMostOnce o k') :
    jsAtMostOnce (jsMapSet o k v) k' := by
  unfold jsMapSet
  by_cases ha : o.any (fun p => p.1 == k)
  · rw [if_pos ha]
    unfold jsAtMostOnce
    rw [show ((o.map (fun p => if p.1 == k then (k, v) else p)).filter
      (fun p => p.1 == k')).length
        = jsCount (o.map (fun p => if p.1 == k then (k, v) else p)) k'
      from rfl, jsCount_map_replace]
    exact h
  · rw [if_neg ha]
    unfold jsAtMostOnce at h ⊢
    rw [List.filter_append, List.length_append]
    by_cases hx : k == k'
    · have : k = k' := by simpa using hx
      subst this
      have h0 : jsCount o k = 0 :=
        jsCount_eq_zero_of_not_has (Bool.eq_false_iff.mpr ha)
      rw [show (o.filter (fun p => p.1 == k)).length = jsCount o k from rfl, h0]
      simp
    · simp only [List.filter_cons, hx, List.filter_nil]
      simpa using h

theorem dropUndefined_cons (k : String) (v : JsVal) (t : JsObj) :
    dropUndefined ((k, v) :: t)
      = if v = JsVal.undefined then dropUndefined t
        else (k, v) :: dropUndefined t := by
  by_cases h : v = JsVal.undefined <;> simp [dropUndefined, List.filter_cons, h]

theorem jsCount_dropUndefined_le (o : JsObj) (k : String) :
    jsCount (dropUndefined o) k ≤ jsCount o k := by
  induction o with
  | nil => exact Nat.le_refl 0
  | cons p t ih =>
      obtain ⟨k₀, v₀⟩ := p
      rw [dropUndefined_cons]
      by_cases hv : v₀ = JsVal.undefined
      · rw [if_pos hv]
        unfold jsCount
        rw [List.filter_cons]
        by_cases hx : k₀ == k
        · simp only [hx]
          exact Nat.le_succ_of_le ih
        · simp only [hx]
          exact ih
      · rw [if_neg hv]
        unfold jsCount
        rw [List.filter_cons, List.filter_cons]
        by_cases hx : k₀ == k
        · simp only [hx]
          exact Nat.succ_le_succ ih
        · simp only [hx]
          exact ih

theorem jsHas_false_of_count_zero {o : JsObj}
    {k : String} (h : jsCount o k = 0) : jsHas o k = false := by
  induction o with
  | nil => rfl
  | cons p t ih =>
      obtain ⟨k₀, v₀⟩ := p
      unfold jsCount at h
      rw [List.filter_cons] at h
      by_cases hx : k₀ == k
      · simp [hx] at h
      · simp only [hx] at h
        simp only [jsHas, List.any_cons, hx, Bool.false_or]
        exact ih h

theorem jsCount_tail_eq_zero {α : Type} {k : String} {v : α}
    {t : List (String × α)} (h : jsAtMostOnce ((k, v) :: t) k) :
    jsCount t k = 0 := by
  unfold jsAtMostOnce at h
  rw [List.filter_cons] at h
  simp only [beq_self_eq_true, if_pos, List.length_cons] at h
  exact Nat.le_zero.1 (Nat.le_of_succ_le_succ h)

theorem jsAtMostOnce_tail {α : Type} {k₀ k : String} {v : α}
    {t : List (String × α)} (h : jsAtMostOnce ((k₀, v) :: t) k) :
    jsAtMostOnce t k := by
  unfold jsAtMostOnce at h ⊢
  rw [List.filter_cons] at h
  by_cases hx : k₀ == k
  · simp only [hx, List.length_cons] at h
    exact Nat.le_of_succ_le h
  · simpa only [hx] using h

theorem jsHas_dropUndefined {o : JsObj} {k : String} (h : jsAtMostOnce o k) :
    jsHas (dropUndefined o) k = !(jsGetVal o k == JsVal.undefined) := by
  induction o with
  | nil => rfl
  | cons p t ih =>
      obtain ⟨k₀, v₀⟩ := p
      rw [dropUndefined_cons]
      by_cases hk : k₀ == k
      · have hk' : k₀ = k := by simpa using hk
        rw [hk'] at h ⊢
        have ht0 : jsCount t k = 0 := jsCount_tail_eq_zero h
        have htd : jsHas (dropUndefined t) k = false :=
          jsHas_false_of_count_zero
            (Nat.le_zero.1 (ht0 ▸ jsCount_dropUndefined_le t k))
        by_cases hv : v₀ = JsVal.undefined
        · rw [if_pos hv, htd]
          subst hv
          rw [jsGetVal, jsMapGet_cons, if_pos (by simp : (k == k) = true)]
          rfl
        · rw [if_neg hv]
          rw [jsGetVal, jsMapGet_cons, if_pos (by simp : (k == k) = true)]
          simp [jsHas, hv]
      · have ht := jsAtMostOnce_tail h
        have hget : jsGetVal ((k₀, v₀) :: t) k = jsGetVal t k := by
          rw [jsGetVal, jsMapGet_cons, if_neg hk, jsGetVal]
        rw [hget]
        by_cases hv : v₀ = JsVal.undefined
        · rw [if_pos hv]
          exact ih ht
        · rw [if_neg hv]
          simp only [jsHas, List.any_cons, hk, Bool.false_or]
          exact ih ht

theorem jsGetVal_dropUndefined {o : JsObj} {k : String}
    (h : jsAtMostOnce o k) :
    jsGetVal (dropUndefined o) k
      = if jsGetVal o k = JsVal.undefined then JsVal.undefined
        else jsGetVal o k := by
  induction o with
  | nil => rfl
  | cons p t ih =>
      obtain ⟨k₀, v₀⟩ := p
      rw [dropUndefined_cons]
      by_cases hk : k₀ == k
      · have hk' : k₀ = k := by simpa using hk
        rw [hk'] at h ⊢
        have ht0 : jsCount t k = 0 := jsCount_tail_eq_zero h
        have htd : jsHas (dropUndefined t) k = false :=
          jsHas_false_of_count_zero
            (Nat.le_zero.1 (ht0 ▸ jsCount_dropUndefined_le t k))
        by_cases hv : v₀ = JsVal.undefined
        · rw [if_pos hv]
          subst hv
          have hhd : jsGetVal ((k, JsVal.undefined) :: t) k
              = JsVal.undefined := by
            rw [jsGetVal, jsMapGet_cons, if_pos (by simp : (k == k) = true)]
          rw [hhd, jsGetVal_of_not_has htd]
          simp
        · rw [if_neg hv]
          have hhd : jsGetVal ((k, v₀) :: t) k = v₀ := by
            rw [jsGetVal, jsMapGet_cons, if_pos (by simp : (k == k) = true)]
          have hhd' : jsGetVal ((k, v₀) :: dropUndefined t) k = v₀ := by
            rw [jsGetVal, jsMapGet_cons, if_pos (by simp : (k == k) = true)]
          rw [hhd, hhd', if_neg hv]
      · have ht := jsAtMostOnce_tail h
        have hget : jsGetVal ((k₀, v₀) :: t) k = jsGetVal t k := by
          rw [jsGetVal, jsMapGet_cons, if_neg hk, jsGetVal]
        rw [hget]
        by_cases hv : v₀ = JsVal.undefined
        · rw [if_pos hv]
          exact ih ht
        · rw [if_neg hv]
          have : jsGetVal ((k₀, v₀) :: dropUndefined t) k
              = jsGetVal (dropUndefined t) k := by
            rw [jsGetVal, jsMapGet_cons, if_neg hk, jsGetVal]
          rw [this]
          exact ih ht

/-! ### The separator character and the decimal representation -/

theorem pipe_split_chars :
    ∀ u v x y : List Char, '|' ∉ u → '|' ∉ v →
      u ++ '|' :: x = v ++ '|' :: y → u = v ∧ x = y := by
  intro u
  induction u with
  | nil =>
      intro v x y _ hv h
      cases v with
      | nil =>
          simp only [List.nil_append] at h
          exact ⟨rfl, by injection h⟩
      | cons c v' =>
          simp only [List.nil_append, List.cons_append] at h
          injection h with h1 h2
          exact absurd (h1 ▸ List.mem_cons_self c v') (by
            intro hc
            exact hv (h1 ▸ hc))
  | cons c u' ih =>
      intro v x y hu hv h
      cases v with
      | nil =>
          simp only [List.cons_append, List.nil_append] at h
          injection h with h1 h2
          exact absurd (List.mem_cons_self c u') (by
            intro hc
            exact hu (h1 ▸ hc))
      | cons d v' =>
          simp only [List.cons_append] at h
          injection h with h1 h2
          obtain ⟨he, hx⟩ := ih v' x y
            (fun hc => hu (List.mem_cons_of_mem c hc))
            (fun hc => hv (List.mem_cons_of_mem d hc)) h2
          exact ⟨by rw [h1, he], hx⟩

theorem append_pipe_inj {a b x y : String} (ha : strNoPipe a)
    (hb : strNoPipe b) (h : a ++ "|" ++ x = b ++ "|" ++ y) :
    a = b ∧ x = y := by
  have hd := congrArg String.data h
  simp only [String.data_append] at hd
  simp only [List.append_assoc, List.singleton_append] at hd
  obtain ⟨h1, h2⟩ := pipe_split_chars a.data b.data x.data y.data ha hb hd
  exact ⟨String.ext h1, String.ext h2⟩

theorem joinParts_inj :
    ∀ l₁ l₂ : List String, (∀ s ∈ l₁, strNoPipe s) →
      (∀ s ∈ l₂, strNoPipe s) → l₁.length = l₂.length →
      joinParts l₁ = joinParts l₂ → l₁ = l₂ := by
  intro l₁
  induction l₁ with
  | nil =>
      intro l₂ _ _ hlen _
      cases l₂ with
      | nil => rfl
      | cons b t₂ => simp at hlen
  | cons a t₁ ih =>
      intro l₂ h₁ h₂ hlen hj
      cases l₂ with
      | nil => simp at hlen
      | cons b t₂ =>
          cases t₁ with
          | nil =>
              cases t₂ with
              | nil =>
                  simp only [joinParts] at hj
                  rw [hj]
              | cons c t₂' => simp at hlen
          | cons a' t₁' =>
              cases t₂ with
              | nil => simp at hlen
              | cons b' t₂' =>
                  simp only [joinParts] at hj
                  rw [show a ++ "|" ++ joinParts (a' :: t₁')
                      = a ++ "|" ++ joinParts (a' :: t₁') from rfl] at hj
                  obtain ⟨hab, hrest⟩ := append_pipe_inj
                    (h₁ a (by simp)) (h₂ b (by simp)) hj
                  have := ih (b' :: t₂')
                    (fun s hs => h₁ s (List.mem_cons_of_mem a hs))
                    (fun s hs => h₂ s (List.mem_cons_of_mem b hs))
                    (by simpa using hlen) hrest
                  rw [hab, this]

theorem toDigitsCore_append (fuel n : Nat) (ds : List Char) :
    Nat.toDigitsCore 10 fuel n ds = Nat.toDigitsCore 10 fuel n [] ++ ds := by
  induction fuel generalizing n ds with
  | zero => rfl
  | succ f ih =>
      unfold Nat.toDigitsCore
      by_cases h : n / 10 = 0
      · simp [h]
      · simp only [h, if_neg, not_false_iff]
        rw [ih (n / 10) (Nat.digitChar (n % 10) :: ds),
          ih (n / 10) [Nat.digitChar (n % 10)]]
        simp

theorem toDigitsCore_fuel (fuel n : Nat) (h : n < fuel) :
    Nat.toDigitsCore 10 fuel n [] = Nat.toDigitsCore 10 (n + 1) n [] := by
  induction n using Nat.strong_induction_on generalizing fuel with
  | _ n ihn =>
      cases fuel with
      | zero => exact absurd h (Nat.not_lt_zero n)
      | succ f =>
          rw [show Nat.toDigitsCore 10 (f + 1) n []
              = (if n / 10 = 0 then [Nat.digitChar (n % 10)]
                 else Nat.toDigitsCore 10 f (n / 10) [Nat.digitChar (n % 10)])
              from rfl,
            show Nat.toDigitsCore 10 (n + 1) n []
              = (if n / 10 = 0 then [Nat.digitChar (n % 10)]
                 else Nat.toDigitsCore 10 n (n / 10) [Nat.digitChar (n % 10)])
              from rfl]
          by_cases hd : n / 10 = 0
          · rw [if_pos hd, if_pos hd]
          · rw [if_neg hd, if_neg hd]
            have hn0 : 0 < n := by
              by_contra hc
              have : n = 0 := Nat.eq_zero_of_not_pos hc
              subst this
              simp at hd
            have hlt : n / 10 < n := Nat.div_lt_self hn0 (by decide)
            rw [toDigitsCore_append f (n / 10),
              toDigitsCore_append n (n / 10),
              ihn (n / 10) hlt f
                (Nat.lt_of_lt_of_le hlt (Nat.le_of_succ_le_succ h)),
              ihn (n / 10) hlt n hlt]

theorem toDigits_unfold (n : Nat) :
    Nat.toDigits 10 n
      = (if n / 10 = 0 then [] else Nat.toDigits 10 (n / 10))
          ++ [Nat.digitChar (n % 10)] := by
  rw [show Nat.toDigits 10 n = Nat.toDigitsCore 10 (n + 1) n [] from rfl,
    show Nat.toDigitsCore 10 (n + 1) n []
      = (if n / 10 = 0 then [Nat.digitChar (n % 10)]
         else Nat.toDigitsCore 10 n (n / 10) [Nat.digitChar (n % 10)])
      from rfl]
  by_cases hd : n / 10 = 0
  · rw [if_pos hd, if_pos hd]
    rfl
  · rw [if_neg hd, if_neg hd]
    have hn0 : 0 < n := by
      by_contra hc
      have : n = 0 := Nat.eq_zero_of_not_pos hc
      subst this
      simp at hd
    rw [toDigitsCore_append n (n / 10),
      toDigitsCore_fuel n (n / 10) (Nat.div_lt_self hn0 (by decide))]
    rfl

theorem toDigits_ne_nil (n : Nat) : Nat.toDigits 10 n ≠ [] := by
  rw [toDigits_unfold]
  simp

theorem digitChar_ne_pipe (n : Nat) : Nat.digitChar n ≠ '|' := by
  by_cases h0 : n = 0
  · subst h0; decide
  by_cases h1 : n = 1
  · subst h1; decide
  by_cases h2 : n = 2
  · subst h2; decide
  by_cases h3 : n = 3
  · subst h3; decide
  by_cases h4 : n = 4
  · subst h4; decide
  by_cases h5 : n = 5
  · subst h5; decide
  by_cases h6 : n = 6
  · subst h6; decide
  by_cases h7 : n = 7
  · subst h7; decide
  by_cases h8 : n = 8
  · subst h8; decide
  by_cases h9 : n = 9
  · subst h9; decide
  by_cases h10 : n = 10
  · subst h10; decide
  by_cases h11 : n = 11
  · subst h11; decide
  by_cases h12 : n = 12
  · subst h12; decide
  by_cases h13 : n = 13
  · subst h13; decide
  by_cases h14 : n = 14
  · subst h14; decide
  by_cases h15 : n = 15
  · subst h15; decide
  unfold Nat.digitChar
  rw [if_neg h0, if_neg h1, if_neg h2, if_neg h3, if_neg h4, if_neg h5, if_neg h6, if_neg h7, if_neg h8, if_neg h9, if_neg h10, if_neg h11, if_neg h12, if_neg h13, if_neg h14, if_neg h15]
  decide

theorem digitChar_inj_lt ( a b : Nat) (ha : a < 10) (hb : b < 10)
    (h : Nat.digitChar a = Nat.digitChar b) : a = b := by
  have key : ∀ x y : Fin 10,
      Nat.digitChar x.val = Nat.digitChar y.val → x = y := by decide
  have := key ⟨a, ha⟩ ⟨b, hb⟩ h
  exact congrArg Fin.val this

theorem toDigits_no_pipe (n : Nat) : '|' ∉ Nat.toDigits 10 n := by
  induction n using Nat.strong_induction_on with
  | _ n ih =>
      rw [toDigits_unfold]
      intro hc
      rcases List.mem_append.1 hc with h | h
      · by_cases hd : n / 10 = 0
        · simp [hd] at h
        · rw [if_neg hd] at h
          have hn0 : 0 < n := by
            by_contra hcc
            have : n = 0 := Nat.eq_zero_of_not_pos hcc
            subst this
            simp at hd
          exact ih (n / 10) (Nat.div_lt_self hn0 (by decide)) h
      · have := List.mem_singleton.1 h
        exact digitChar_ne_pipe (n % 10) this.symm

theorem toDigits_inj :
    ∀ m n : Nat, Nat.toDigits 10 m = Nat.toDigits 10 n → m = n := by
  intro m
  induction m using Nat.strong_induction_on with
  | _ m ih =>
      intro n h
      rw [toDigits_unfold m, toDigits_unfold n] at h
      have hrev := congrArg List.reverse h
      simp only [List.reverse_append, List.reverse_cons, List.reverse_nil,
        List.nil_append, List.singleton_append] at hrev
      injection hrev with hdig hpre
      have hmod : m % 10 = n % 10 :=
        digitChar_inj_lt _ _ (Nat.mod_lt m (by decide))
          (Nat.mod_lt n (by decide)) hdig
      have hpre' := congrArg List.reverse hpre
      simp only [List.reverse_reverse] at hpre'
      by_cases hm : m / 10 = 0
      · by_cases hn : n / 10 = 0
        · have := Nat.div_add_mod m 10
          have h2 := Nat.div_add_mod n 10
          omega
        · rw [if_pos hm, if_neg hn] at hpre'
          exact absurd hpre'.symm (toDigits_ne_nil (n / 10))
      · by_cases hn : n / 10 = 0
        · rw [if_neg hm, if_pos hn] at hpre'
          exact absurd hpre' (toDigits_ne_nil (m / 10))
        · rw [if_neg hm, if_neg hn] at hpre'
          have hm0 : 0 < m := by
            by_contra hc
            have : m = 0 := Nat.eq_zero_of_not_pos hc
            subst this
            simp at hm
          have hdiv : m / 10 = n / 10 :=
            ih (m / 10) (Nat.div_lt_self hm0 (by decide)) (n / 10) hpre'
          have := Nat.div_add_mod m 10
          have h2 := Nat.div_add_mod n 10
          omega

theorem natToString_inj {m n : Nat} (h : toString m = toString n) : m = n := by
  have hm : toString m = (Nat.toDigits 10 m).asString := rfl
  have hn : toString n = (Nat.toDigits 10 n).asString := rfl
  rw [hm, hn] at h
  have := congrArg String.data h
  simp only [List.asString] at this
  exact toDigits_inj m n this

theorem natToString_no_pipe (n : Nat) : strNoPipe (toString n) := by
  have hm : toString n = (Nat.toDigits 10 n).asString := rfl
  unfold strNoPipe
  rw [hm]
  show '|' ∉ (Nat.toDigits 10 n)
  exact toDigits_no_pipe n

/-! ### Structural keys of stat refs -/

theorem metricKey_stat (c : MetricStatConfig) (rp : JsObj) :
    metricKey (.stat c rp) = joinParts (statParts c) := rfl

theorem strTruthy_false_elim {x : Option String} (hx : x ≠ some "")
    (h : strTruthy x = false) : x = none := by
  cases x with
  | none => rfl
  | some s =>
      simp only [strTruthy, Bool.not_eq_false', beq_iff_eq] at h
      exact absurd (by rw [h]) hx

theorem strTruthy_true_elim {x : Option String}
    (h : strTruthy x = true) : x = some (x.getD "") := by
  cases x with
  | none => simp [strTruthy] at h
  | some s => rfl

theorem opt_segment_inj {x y : Option String} (hx : x ≠ some "")
    (hy : y ≠ some "") (ht : strTruthy x = strTruthy y)
    (h : (if strTruthy x then [x.getD ""] else [])
        = (if strTruthy y then [y.getD ""] else [])) : x = y := by
  cases hb : strTruthy x with
  | false =>
      have hby : strTruthy y = false := by rw [← ht, hb]
      rw [strTruthy_false_elim hx hb, strTruthy_false_elim hy hby]
  | true =>
      have hby : strTruthy y = true := (hb ▸ ht).symm
      rw [if_pos hb, if_pos hby] at h
      injection h with h
      rw [strTruthy_true_elim hb, strTruthy_true_elim hby, h]

theorem period_segment_inj {x y : Option Nat}
    (ht : x.isSome = y.isSome)
    (h : periodSeg x = periodSeg y) : x = y := by
  cases x with
  | none =>
      cases y with
      | none => rfl
      | some q => simp at ht
  | some p =>
      cases y with
      | none => simp at ht
      | some q =>
          simp only [periodSeg] at h
          injection h with h
          rw [natToString_inj h]

theorem dims_flatMap_inj :
    ∀ d₁ d₂ : List (String × String), d₁.length = d₂.length →
      d₁.flatMap (fun d => [d.1, d.2]) = d₂.flatMap (fun d => [d.1, d.2]) →
      d₁ = d₂ := by
  intro d₁
  induction d₁ with
  | nil =>
      intro d₂ hl _
      cases d₂ with
      | nil => rfl
      | cons p t => simp at hl
  | cons p t ih =>
      intro d₂ hl h
      cases d₂ with
      | nil => simp at hl
      | cons q t₂ =>
          obtain ⟨a, b⟩ := p
          obtain ⟨a', b'⟩ := q
          simp only [List.flatMap_cons, List.cons_append, List.nil_append] at h
          injection h with h1 h
          injection h with h2 h
          rw [h1, h2, ih t₂ (by simpa using hl) h]

theorem dims_flatMap_length (d : List (String × String)) :
    (d.flatMap (fun p => [p.1, p.2])).length = 2 * d.length := by
  induction d with
  | nil => rfl
  | cons p t ih =>
      rw [List.flatMap_cons, List.length_append, ih]
      simp only [List.length_cons, List.length_nil, List.length]
      omega

theorem periodSeg_len (x : Option Nat) :
    (periodSeg x).length = (if x.isSome then 1 else 0) := by
  cases x <;> rfl

theorem statParts_length (c : MetricStatConfig) :
    (statParts c).length
      = 2 + 2 * c.dimensions.length
        + (if strTruthy c.statistic then 1 else 0)
        + (if c.period.isSome then 1 else 0)
        + (if strTruthy c.region then 1 else 0)
        + (if strTruthy c.account then 1 else 0) := by
  unfold statParts
  rw [List.length_append, List.length_append, List.length_append,
    List.length_append, List.length_append, dims_flatMap_length]
  have h1 : ∀ x : Option String,
      (if strTruthy x then [x.getD ""] else []).length
        = (if strTruthy x then 1 else 0) := by
    intro x
    by_cases hx : strTruthy x <;> simp [hx]
  rw [h1, h1, h1, periodSeg_len]
  simp only [List.length_cons, List.length_nil, List.length]

theorem opt_seg_len (x : Option String) :
    (if strTruthy x then [x.getD ""] else []).length
      = (if strTruthy x then 1 else 0) := by
  by_cases hx : strTruthy x <;> simp [hx]

theorem statKey_fields_eq (c₁ c₂ : MetricStatConfig)
    (hdims : c₁.dimensions.length = c₂.dimensions.length)
    (hstatt : strTruthy c₁.statistic = strTruthy c₂.statistic)
    (hstat₁ : c₁.statistic ≠ some "") (hstat₂ : c₂.statistic ≠ some "")
    (hpert : c₁.period.isSome = c₂.period.isSome)
    (hregt : strTruthy c₁.region = strTruthy c₂.region)
    (hreg₁ : c₁.region ≠ some "") (hreg₂ : c₂.region ≠ some "")
    (hacct : strTruthy c₁.account = strTruthy c₂.account)
    (hacc₁ : c₁.account ≠ some "") (hacc₂ : c₂.account ≠ some "")
    (h : statParts c₁ = statParts c₂) : c₁ = c₂ := by
  unfold statParts at h
  obtain ⟨h, hAcc⟩ := List.append_inj' h
    (by rw [opt_seg_len, opt_seg_len, hacct])
  obtain ⟨h, hReg⟩ := List.append_inj' h
    (by rw [opt_seg_len, opt_seg_len, hregt])
  obtain ⟨h, hPer⟩ := List.append_inj' h
    (by rw [periodSeg_len, periodSeg_len, hpert])
  obtain ⟨h, hStat⟩ := List.append_inj' h
    (by rw [opt_seg_len, opt_seg_len, hstatt])
  obtain ⟨hA, hD⟩ := List.append_inj h (by rfl)
  have hns : c₁.«namespace» = c₂.«namespace» := by
    injection hA with h1 _
  have hmn : c₁.metricName = c₂.metricName := by
    injection hA with _ h2
    injection h2 with h2 _
  have hdim : c₁.dimensions = c₂.dimensions :=
    dims_flatMap_inj _ _ hdims hD
  have hst : c₁.statistic = c₂.statistic :=
    opt_segment_inj hstat₁ hstat₂ hstatt hStat
  have hpe : c₁.period = c₂.period :=
    period_segment_inj hpert hPer
  have hre : c₁.region = c₂.region :=
    opt_segment_inj hreg₁ hreg₂ hregt hReg
  have hac : c₁.account = c₂.account :=
    opt_segment_inj hacc₁ hacc₂ hacct hAcc
  obtain ⟨n₁, m₁, d₁, s₁, p₁, r₁, a₁⟩ := c₁
  obtain ⟨n₂, m₂, d₂, s₂, p₂, r₂, a₂⟩ := c₂
  simp only at hns hmn hdim hst hpe hre hac
  rw [hns, hmn, hdim, hst, hpe, hre, hac]

/-- C3 (corrected): `metricKey` is not injective over stat refs as claimed:
`statDimPairConf` and `statKeyTwinConf` differ in dimensions, statistic and
period yet produce the same key, and `statPipeNsConf` / `statPipeNameConf`
differ in namespace and metric name yet produce the same key. -/
theorem claim_C3_counterexample :
    metricKey (.stat statDimPairConf []) = metricKey (.stat statKeyTwinConf [])
      ∧ statDimPairConf.dimensions ≠ statKeyTwinConf.dimensions
      ∧ statDimPairConf.statistic ≠ statKeyTwinConf.statistic
      ∧ statDimPairConf.period ≠ statKeyTwinConf.period
      ∧ metricKey (.stat statPipeNsConf []) = metricKey (.stat statPipeNameConf [])
      ∧ statPipeNsConf.«namespace» ≠ statPipeNameConf.«namespace»
      ∧ statPipeNsConf.metricName ≠ statPipeNameConf.metricName :=
  ⟨rfl, by decide, by decide, by decide, rfl, by decide, by decide⟩

/-- C3 (amended): over stat refs of the same shape — equal dimension
counts, the same presence pattern for statistic / period / region /
account, none of those set to the empty string, and no component string
containing the separator character — two stat refs whose semantic content
differs in namespace, metric name, dimensions, statistic, period, account
or region produce different keys. -/
theorem claim_C3 (c₁ c₂ : MetricStatConfig) (rp₁ rp₂ : JsObj)
    (hdims : c₁.dimensions.length = c₂.dimensions.length)
    (hstatt : strTruthy c₁.statistic = strTruthy c₂.statistic)
    (hstat₁ : c₁.statistic ≠ some "") (hstat₂ : c₂.statistic ≠ some "")
    (hpert : c₁.period.isSome = c₂.period.isSome)
    (hregt : strTruthy c₁.region = strTruthy c₂.region)
    (hreg₁ : c₁.region ≠ some "") (hreg₂ : c₂.region ≠ some "")
    (hacct : strTruthy c₁.account = strTruthy c₂.account)
    (hacc₁ : c₁.account ≠ some "") (hacc₂ : c₂.account ≠ some "")
    (hnp₁ : ∀ s ∈ statParts c₁, strNoPipe s)
    (hnp₂ : ∀ s ∈ statParts c₂, strNoPipe s)
    (hdiff : c₁.«namespace» ≠ c₂.«namespace» ∨ c₁.metricName ≠ c₂.metricName
      ∨ c₁.dimensions ≠ c₂.dimensions ∨ c₁.statistic ≠ c₂.statistic
      ∨ c₁.period ≠ c₂.period ∨ c₁.account ≠ c₂.account
      ∨ c₁.region ≠ c₂.region) :
    metricKey (.stat c₁ rp₁) ≠ metricKey (.stat c₂ rp₂) := by
  intro hk
  rw [metricKey_stat, metricKey_stat] at hk
  have hlen : (statParts c₁).length = (statParts c₂).length := by
    rw [statParts_length, statParts_length, hdims, hstatt, hregt, hacct,
      hpert]
  have hparts := joinParts_inj _ _ hnp₁ hnp₂ hlen hk
  have hceq := statKey_fields_eq c₁ c₂ hdims hstatt hstat₁ hstat₂ hpert
    hregt hreg₁ hreg₂ hacct hacc₁ hacc₂ hparts
  rcases hdiff with h | h | h | h | h | h | h <;> exact h (by rw [hceq])

/-- Witness for C3: two stat refs of equal shape differing only in
namespace indeed get different keys. -/
theorem claim_C3_witness :
    metricKey (.stat ⟨"AWS/EC2", "CPUUtilization", [("InstanceId", "i-1")],
        none, none, none, none⟩ [])
      ≠ metricKey (.stat ⟨"AWS/S3", "CPUUtilization", [("InstanceId", "i-1")],
        none, none, none, none⟩ []) :=
  claim_C3 _ _ [] [] rfl rfl (by decide) (by decide) rfl rfl (by decide)
    (by decide) rfl (by decide) (by decide) (by decide) (by decide)
    (Or.inl (by decide))

/-! ### C9: the defensive error is reachable through validated inputs -/

/-- C9: `exprXA` and `exprXB` each pass `validateNoIdConflicts` on their
own, yet registering them top level on one `MetricSet` throws the
"Can't happen, already checked elsewhere" defensive error, because they
bind the identifier "x" to structurally different metrics. -/
theorem claim_C9 :
    validateNoIdConflicts exprXA = .ok ()
      ∧ validateNoIdConflicts exprXB = .ok ()
      ∧ exceptError (do
          let s ← MetricSet.empty.addTopLevel "left" [exprXA]
          s.addTopLevel "right" [exprXB])
        = some "Can't happen, already checked elsewhere" := by
  refine ⟨?_, ?_, ?_⟩
  · simp [validateNoIdConflicts, validateVisit, validateFold, exprXA, statA,
      statAConf, jsMapGet, jsMapSet, bind, Except.bind, pure, Except.pure]
  · simp [validateNoIdConflicts, validateVisit, validateFold, exprXB, statB,
      statBConf, jsMapGet, jsMapSet, bind, Except.bind, pure, Except.pure]
  · simp [MetricSet.addTopLevel, MetricSet.addOne, MetricSet.addChildren,
      MetricSet.resolveEntry, MetricSet.lookupById, MetricSet.lookupByKey,
      MetricSet.pushEntry, MetricSet.bindId, MetricSet.bindTag,
      MetricSet.empty, MetricSet.entryAt, metricKey, metricKeyPairs,
      statParts, periodSeg, joinParts, jsMapGet, jsMapSet, strTruthy,
      exprXA, exprXB, statA, statB, statAConf, statBConf, exceptError,
      List.foldlM, bind, Except.bind, pure, Except.pure]

/-! ### Building a set from two stat refs, and rendered rows -/

theorem addTopLevel_empty_stat (cA : MetricStatConfig) (rpA : JsObj)
    (tA : String) (htA : tA ≠ "") :
    MetricSet.empty.addTopLevel tA [Metric.stat cA rpA]
      = .ok ⟨[⟨.stat cA rpA, some tA, none⟩], [],
             [(metricKey (.stat cA rpA), 0)]⟩ := by
  have htA' : (tA == "") = false := beq_eq_false_iff_ne.mpr htA
  simp [MetricSet.addTopLevel, List.foldlM, MetricSet.addOne,
    MetricSet.resolveEntry, MetricSet.lookupById, MetricSet.lookupByKey,
    MetricSet.pushEntry, MetricSet.bindId, MetricSet.bindTag,
    MetricSet.empty, MetricSet.entryAt, strTruthy, jsMapGet, jsMapSet,
    List.find?, htA', bind, Except.bind, pure, Except.pure]

theorem addTopLevel_second_stat (cA cB : MetricStatConfig)
    (rpA rpB : JsObj) (tA tB : String) (htB : tB ≠ "")
    (hk : metricKey (.stat cB rpB) ≠ metricKey (.stat cA rpA)) :
    MetricSet.addTopLevel
      ⟨[⟨.stat cA rpA, some tA, none⟩], [],
       [(metricKey (.stat cA rpA), 0)]⟩ tB [Metric.stat cB rpB]
      = .ok ⟨[⟨.stat cA rpA, some tA, none⟩, ⟨.stat cB rpB, some tB, none⟩],
             [],
             [(metricKey (.stat cA rpA), 0),
              (metricKey (.stat cB rpB), 1)]⟩ := by
  have hbeq : (metricKey (.stat cA rpA) == metricKey (.stat cB rpB)) = false :=
    beq_eq_false_iff_ne.mpr (Ne.symm hk)
  have htB' : (tB == "") = false := beq_eq_false_iff_ne.mpr htB
  simp [MetricSet.addTopLevel, List.foldlM, MetricSet.addOne,
    MetricSet.resolveEntry, MetricSet.lookupById, MetricSet.lookupByKey,
    MetricSet.pushEntry, MetricSet.bindId, MetricSet.bindTag,
    MetricSet.entryAt, strTruthy, jsMapGet, jsMapSet,
    List.find?, hbeq, htB', bind, Except.bind, pure, Except.pure]

theorem metricGraphJson_statA_left :
    metricGraphJson statA (some "left") none
      = [.str "AWS/EC2", .str "CPUUtilization", .str "InstanceId",
         .str "i-1"] := by
  simp [metricGraphJson, metricGraphOptions, statRenderOptions,
    axisIdLabelOptions, statA, statAConf, statTokens,
    Metric.renderingProperties, jsGetVal, jsTruthy, jsMapGet, jsMapSet,
    dropUndefined, optStrVal, strTruthy, metricToString, List.find?]

theorem strTruthy_some (s : String) : strTruthy (some s) = !(s == "") := rfl

theorem strTruthy_none : strTruthy none = false := rfl

theorem metricGraphOptions_plain_right (cB : MetricStatConfig)
    (hacc : strTruthy cB.account = false)
    (hreg : strTruthy cB.region = false)
    (hper : cB.period = none ∨ cB.period = some 300)
    (hstat : strTruthy cB.statistic = false
      ∨ cB.statistic = some "Average") :
    metricGraphOptions (.stat cB []) (some "right") none
      = [("yAxis", .str "right")] := by
  have hstat' : (strTruthy cB.statistic = true
      ∧ ¬ cB.statistic.getD "" = "Average") = False := by
    rcases hstat with hs | hs <;> simp [hs, strTruthy_some]
  rcases hper with hp | hp <;>
    simp [metricGraphOptions, statRenderOptions, axisIdLabelOptions,
      Metric.renderingProperties, hacc, hreg, hp,
      hstat', jsMapSet, jsGetVal, jsMapGet, jsTruthy, dropUndefined,
      optStrVal, strTruthy_some, strTruthy_none, List.find?]

theorem metricGraphJson_plain_right (cB : MetricStatConfig)
    (hacc : strTruthy cB.account = false)
    (hreg : strTruthy cB.region = false)
    (hper : cB.period = none ∨ cB.period = some 300)
    (hstat : strTruthy cB.statistic = false
      ∨ cB.statistic = some "Average") :
    metricGraphJson (.stat cB []) (some "right") none
      = statTokens cB ++ [.opts [("yAxis", .str "right")]] := by
  unfold metricGraphJson
  rw [metricGraphOptions_plain_right cB hacc hreg hper hstat]
  simp

/-! ### C8: the worked example of the spec -/

/-- C8 (corrected): on the spec's example input the first row carries no
trailing options object at all — the empty options object is omitted from
the token sequence — so the claimed row ending in `{}` is not what the
code produces. -/
theorem claim_C8_counterexample :
    allMetricsGraphJson [statA] [statB]
      = .ok [[.str "AWS/EC2", .str "CPUUtilization", .str "InstanceId",
              .str "i-1"],
             [.str "AWS/S3", .str "BucketSizeBytes",
              .opts [("yAxis", .str "right")]]]
      ∧ ([GraphToken.str "AWS/EC2", .str "CPUUtilization", .str "InstanceId",
            .str "i-1"] : List GraphToken)
          ≠ [.str "AWS/EC2", .str "CPUUtilization", .str "InstanceId",
             .str "i-1", .opts []] := by
  have hk : metricKey (.stat statBConf []) ≠ metricKey (.stat statAConf []) := by
    simp [metricKey, metricKeyPairs, statParts, periodSeg, joinParts,
      statAConf, statBConf, strTruthy]
  have h1 := addTopLevel_empty_stat statAConf [] "left" (by decide)
  have h2 := addTopLevel_second_stat statAConf statBConf [] [] "left" "right"
    (by decide) hk
  have hrowB : metricGraphJson (.stat statBConf []) (some "right") none
      = [.str "AWS/S3", .str "BucketSizeBytes",
         .opts [("yAxis", .str "right")]] := by
    rw [metricGraphJson_plain_right statBConf rfl rfl (Or.inl rfl)
      (Or.inl rfl)]
    simp [statTokens, statBConf]
  have hfoldA : Metric.stat statAConf [] = statA := rfl
  have hfoldB : Metric.stat statBConf [] = statB := rfl
  rw [hfoldA] at h1 h2
  rw [hfoldB] at h2 hrowB
  constructor
  · simp [allMetricsGraphJson, h1, h2, bind, Except.bind, pure, Except.pure,
      hrowB, metricGraphJson_statA_left]
  · decide

/-- C8 (amended): with statB any stat ref whose structural key differs from
statA's and which renders no options of its own (no account or region, a
period that is absent or the default 300 s, a statistic that is absent or
the default "Average", empty rendering properties), the example yields
exactly two rows: statA's tokens with the empty options object omitted,
and statB's tokens ending in the options object `{yAxis: "right"}`. -/
theorem claim_C8 (cB : MetricStatConfig)
    (hkey : metricKey (.stat cB []) ≠ metricKey statA)
    (hacc : strTruthy cB.account = false)
    (hreg : strTruthy cB.region = false)
    (hper : cB.period = none ∨ cB.period = some 300)
    (hstat : strTruthy cB.statistic = false ∨ cB.statistic = some "Average") :
    allMetricsGraphJson [statA] [.stat cB []]
      = .ok [[.str "AWS/EC2", .str "CPUUtilization", .str "InstanceId",
              .str "i-1"],
             statTokens cB ++ [.opts [("yAxis", .str "right")]]] := by
  have h1 := addTopLevel_empty_stat statAConf [] "left" (by decide)
  have h2 := addTopLevel_second_stat statAConf cB [] [] "left" "right"
    (by decide) hkey
  have hrowB := metricGraphJson_plain_right cB hacc hreg hper hstat
  have hfoldA : Metric.stat statAConf [] = statA := rfl
  rw [hfoldA] at h1 h2
  simp [allMetricsGraphJson, h1, h2, bind, Except.bind, pure, Except.pure,
    hrowB, metricGraphJson_statA_left]

/-- Witness for C8 (amended): a concrete statB of the allowed shape. -/
theorem claim_C8_witness :
    allMetricsGraphJson [statA]
      [.stat ⟨"AWS/Lambda", "Invocations", [], some "Average", some 300,
        none, none⟩ []]
      = .ok [[.str "AWS/EC2", .str "CPUUtilization", .str "InstanceId",
              .str "i-1"],
             statTokens ⟨"AWS/Lambda", "Invocations", [], some "Average",
               some 300, none, none⟩
               ++ [.opts [("yAxis", .str "right")]]] :=
  claim_C8 _ (by decide) rfl rfl (Or.inr rfl) (Or.inr rfl)

/-! ### Transport lemmas through the option pipeline -/

theorem getVal_set_other {k k' : String} (h : k' ≠ k) (o : JsObj) (v : JsVal)
    (cond : Prop) [Decidable cond] :
    jsGetVal (if cond then jsMapSet o k v else o) k' = jsGetVal o k' := by
  by_cases hc : cond
  · rw [if_pos hc, jsGetVal_jsMapSet_ne o v h]
  · rw [if_neg hc]

theorem has_set_other {k k' : String} (h : k' ≠ k) (o : JsObj) (v : JsVal)
    (cond : Prop) [Decidable cond] :
    jsHas (if cond then jsMapSet o k v else o) k' = jsHas o k' := by
  by_cases hc : cond
  · rw [if_pos hc, jsHas_jsMapSet]
    have : (k == k') = false := beq_eq_false_iff_ne.mpr (Ne.symm h)
    simp [this]
  · rw [if_neg hc]

theorem atMostOnce_set_ite {k k' : String} (o : JsObj) (v : JsVal)
    (cond : Prop) [Decidable cond] (h : jsAtMostOnce o k') :
    jsAtMostOnce (if cond then jsMapSet o k v else o) k' := by
  by_cases hc : cond
  · rw [if_pos hc]
    exact jsAtMostOnce_jsMapSet k v h
  · rwa [if_neg hc]

theorem getVal_period_step_other {k' : String} (h : k' ≠ "period")
    (x : Option Nat) (o : JsObj) :
    jsGetVal (match x with
      | some p => if p ≠ 300 then jsMapSet o "period" (.num p) else o
      | none => o) k' = jsGetVal o k' := by
  cases x with
  | none => rfl
  | some p =>
      show jsGetVal (if p ≠ 300 then jsMapSet o "period" (.num p) else o) k'
        = jsGetVal o k'
      exact getVal_set_other h o (.num p) (p ≠ 300)

theorem has_period_step_other {k' : String} (h : k' ≠ "period")
    (x : Option Nat) (o : JsObj) :
    jsHas (match x with
      | some p => if p ≠ 300 then jsMapSet o "period" (.num p) else o
      | none => o) k' = jsHas o k' := by
  cases x with
  | none => rfl
  | some p =>
      show jsHas (if p ≠ 300 then jsMapSet o "period" (.num p) else o) k'
        = jsHas o k'
      exact has_set_other h o (.num p) (p ≠ 300)

theorem atMostOnce_period_step {k' : String} (x : Option Nat) (o : JsObj)
    (h : jsAtMostOnce o k') :
    jsAtMostOnce (match x with
      | some p => if p ≠ 300 then jsMapSet o "period" (.num p) else o
      | none => o) k' := by
  cases x with
  | none => exact h
  | some p =>
      show jsAtMostOnce (if p ≠ 300 then jsMapSet o "period" (.num p) else o) k'
      exact atMostOnce_set_ite o (.num p) (p ≠ 300) h

theorem statRender_getVal_other {k' : String} (hk1 : k' ≠ "accountId")
    (hk2 : k' ≠ "region") (hk3 : k' ≠ "period") (hk4 : k' ≠ "stat")
    (s : MetricStatConfig) (o : JsObj) :
    jsGetVal (statRenderOptions s o) k' = jsGetVal o k' := by
  unfold statRenderOptions
  rw [getVal_set_other hk4, getVal_period_step_other hk3,
    getVal_set_other hk2, getVal_set_other hk1]

theorem statRender_has_other {k' : String} (hk1 : k' ≠ "accountId")
    (hk2 : k' ≠ "region") (hk3 : k' ≠ "period") (hk4 : k' ≠ "stat")
    (s : MetricStatConfig) (o : JsObj) :
    jsHas (statRenderOptions s o) k' = jsHas o k' := by
  unfold statRenderOptions
  rw [has_set_other hk4, has_period_step_other hk3,
    has_set_other hk2, has_set_other hk1]

theorem statRender_atMostOnce {k' : String} (s : MetricStatConfig) (o : JsObj)
    (h : jsAtMostOnce o k') : jsAtMostOnce (statRenderOptions s o) k' := by
  unfold statRenderOptions
  exact atMostOnce_set_ite _ _ _
    (atMostOnce_period_step _ _ (atMostOnce_set_ite _ _ _
      (atMostOnce_set_ite _ _ _ h)))

theorem statRender_getVal_period_none (s : MetricStatConfig) (o : JsObj)
    (hp : s.period = none) :
    jsGetVal (statRenderOptions s o) "period" = jsGetVal o "period" := by
  unfold statRenderOptions
  rw [getVal_set_other (by decide : ("period" : String) ≠ "stat")]
  simp only [hp]
  rw [getVal_set_other (by decide : ("period" : String) ≠ "region"),
    getVal_set_other (by decide : ("period" : String) ≠ "accountId")]

theorem statRender_getVal_period_some (s : MetricStatConfig) (o : JsObj)
    (p : Nat) (hp : s.period = some p) :
    jsGetVal (statRenderOptions s o) "period"
      = (if p ≠ 300 then .num p else jsGetVal o "period") := by
  unfold statRenderOptions
  rw [getVal_set_other (by decide : ("period" : String) ≠ "stat")]
  simp only [hp]
  by_cases h300 : p ≠ 300
  · rw [if_pos h300, if_pos h300, jsGetVal_jsMapSet_self]
  · rw [if_neg h300, if_neg h300,
      getVal_set_other (by decide : ("period" : String) ≠ "region"),
      getVal_set_other (by decide : ("period" : String) ≠ "accountId")]

theorem statRender_has_period_none (s : MetricStatConfig) (o : JsObj)
    (hp : s.period = none) :
    jsHas (statRenderOptions s o) "period" = jsHas o "period" := by
  unfold statRenderOptions
  rw [has_set_other (by decide : ("period" : String) ≠ "stat")]
  simp only [hp]
  rw [has_set_other (by decide : ("period" : String) ≠ "region"),
    has_set_other (by decide : ("period" : String) ≠ "accountId")]

theorem statRender_has_period_some (s : MetricStatConfig) (o : JsObj)
    (p : Nat) (hp : s.period = some p) :
    jsHas (statRenderOptions s o) "period"
      = (if p ≠ 300 then true else jsHas o "period") := by
  unfold statRenderOptions
  rw [has_set_other (by decide : ("period" : String) ≠ "stat")]
  simp only [hp]
  by_cases h300 : p ≠ 300
  · rw [if_pos h300, if_pos h300, jsHas_jsMapSet]
    simp
  · rw [if_neg h300, if_neg h300,
      has_set_other (by decide : ("period" : String) ≠ "region"),
      has_set_other (by decide : ("period" : String) ≠ "accountId")]

theorem statRender_getVal_stat (s : MetricStatConfig) (o : JsObj) :
    jsGetVal (statRenderOptions s o) "stat"
      = (if strTruthy s.statistic ∧ s.statistic.getD "" ≠ "Average"
        then .str (s.statistic.getD "")
        else jsGetVal o "stat") := by
  unfold statRenderOptions
  simp only []
  by_cases hc : strTruthy s.statistic ∧ s.statistic.getD "" ≠ "Average"
  · rw [if_pos hc, if_pos hc, jsGetVal_jsMapSet_self]
  · rw [if_neg hc, if_neg hc,
      getVal_period_step_other (by decide : ("stat" : String) ≠ "period"),
      getVal_set_other (by decide : ("stat" : String) ≠ "region"),
      getVal_set_other (by decide : ("stat" : String) ≠ "accountId")]

theorem statRender_has_stat (s : MetricStatConfig) (o : JsObj) :
    jsHas (statRenderOptions s o) "stat"
      = (if strTruthy s.statistic ∧ s.statistic.getD "" ≠ "Average"
        then true
        else jsHas o "stat") := by
  unfold statRenderOptions
  simp only []
  by_cases hc : strTruthy s.statistic ∧ s.statistic.getD "" ≠ "Average"
  · rw [if_pos hc, if_pos hc, jsHas_jsMapSet]
    simp
  · rw [if_neg hc, if_neg hc,
      has_period_step_other (by decide : ("stat" : String) ≠ "period"),
      has_set_other (by decide : ("stat" : String) ≠ "region"),
      has_set_other (by decide : ("stat" : String) ≠ "accountId")]

theorem axis_getVal_other {k' : String} (hk1 : k' ≠ "visible")
    (hk2 : k' ≠ "yAxis") (hk3 : k' ≠ "id") (hk4 : k' ≠ "label")
    (metric : Metric) (yAxis id : Option String) (o : JsObj) :
    jsGetVal (axisIdLabelOptions metric yAxis id o) k' = jsGetVal o k' := by
  unfold axisIdLabelOptions
  simp only []
  rw [getVal_set_other hk4, getVal_set_other hk3, getVal_set_other hk2,
    getVal_set_other hk1]

theorem axis_has_other {k' : String} (hk1 : k' ≠ "visible")
    (hk2 : k' ≠ "yAxis") (hk3 : k' ≠ "id") (hk4 : k' ≠ "label")
    (metric : Metric) (yAxis id : Option String) (o : JsObj) :
    jsHas (axisIdLabelOptions metric yAxis id o) k' = jsHas o k' := by
  unfold axisIdLabelOptions
  simp only []
  rw [has_set_other hk4, has_set_other hk3, has_set_other hk2,
    has_set_other hk1]

theorem axis_atMostOnce {k' : String} (metric : Metric)
    (yAxis id : Option String) (o : JsObj) (h : jsAtMostOnce o k') :
    jsAtMostOnce (axisIdLabelOptions metric yAxis id o) k' := by
  unfold axisIdLabelOptions
  simp only []
  exact atMostOnce_set_ite _ _ _ (atMostOnce_set_ite _ _ _
    (atMostOnce_set_ite _ _ _ (atMostOnce_set_ite _ _ _ h)))

theorem axis_getVal_visible (metric : Metric) (yAxis id : Option String)
    (o : JsObj) :
    jsGetVal (axisIdLabelOptions metric yAxis id o) "visible"
      = (if strTruthy yAxis then jsGetVal o "visible" else .bool false) := by
  unfold axisIdLabelOptions
  simp only []
  rw [getVal_set_other (by decide : ("visible" : String) ≠ "label"),
    getVal_set_other (by decide : ("visible" : String) ≠ "id"),
    getVal_set_other (by decide : ("visible" : String) ≠ "yAxis")]
  by_cases hv : strTruthy yAxis
  · rw [if_pos hv, if_neg (by simpa using hv)]
  · rw [if_neg hv, if_pos (by simpa using hv), jsGetVal_jsMapSet_self]

theorem axis_has_visible (metric : Metric) (yAxis id : Option String)
    (o : JsObj) :
    jsHas (axisIdLabelOptions metric yAxis id o) "visible"
      = (if strTruthy yAxis then jsHas o "visible" else true) := by
  unfold axisIdLabelOptions
  simp only []
  rw [has_set_other (by decide : ("visible" : String) ≠ "label"),
    has_set_other (by decide : ("visible" : String) ≠ "id"),
    has_set_other (by decide : ("visible" : String) ≠ "yAxis")]
  by_cases hv : strTruthy yAxis
  · rw [if_pos hv, if_neg (by simpa using hv)]
  · rw [if_neg hv, if_pos (by simpa using hv), jsHas_jsMapSet]
    simp

theorem axis_getVal_yAxis (metric : Metric) (yAxis id : Option String)
    (o : JsObj) :
    jsGetVal (axisIdLabelOptions metric yAxis id o) "yAxis"
      = (if yAxis ≠ some "left" then optStrVal yAxis
        else jsGetVal o "yAxis") := by
  unfold axisIdLabelOptions
  simp only []
  rw [getVal_set_other (by decide : ("yAxis" : String) ≠ "label"),
    getVal_set_other (by decide : ("yAxis" : String) ≠ "id")]
  by_cases hv : yAxis ≠ some "left"
  · rw [if_pos hv, if_pos hv, jsGetVal_jsMapSet_self]
  · rw [if_neg hv, if_neg hv,
      getVal_set_other (by decide : ("yAxis" : String) ≠ "visible")]

theorem axis_has_yAxis (metric : Metric) (yAxis id : Option String)
    (o : JsObj) :
    jsHas (axisIdLabelOptions metric yAxis id o) "yAxis"
      = (if yAxis ≠ some "left" then true else jsHas o "yAxis") := by
  unfold axisIdLabelOptions
  simp only []
  rw [has_set_other (by decide : ("yAxis" : String) ≠ "label"),
    has_set_other (by decide : ("yAxis" : String) ≠ "id")]
  by_cases hv : yAxis ≠ some "left"
  · rw [if_pos hv, if_pos hv, jsHas_jsMapSet]
    simp
  · rw [if_neg hv, if_neg hv,
      has_set_other (by decide : ("yAxis" : String) ≠ "visible")]

theorem axisParts_of_clean (metric : Metric) (yAxis id : Option String)
    (B : JsObj)
    (hv : jsGetVal B "visible" = .undefined)
    (hy : jsGetVal B "yAxis" = .undefined)
    (hav : jsAtMostOnce B "visible") (hay : jsAtMostOnce B "yAxis") :
    (yAxis = none →
      jsGetVal (dropUndefined (axisIdLabelOptions metric yAxis id B))
          "visible" = .bool false
        ∧ jsHas (dropUndefined (axisIdLabelOptions metric yAxis id B))
          "yAxis" = false)
    ∧ (yAxis = some "right" →
      jsGetVal (dropUndefined (axisIdLabelOptions metric yAxis id B))
          "yAxis" = .str "right"
        ∧ jsHas (dropUndefined (axisIdLabelOptions metric yAxis id B))
          "visible" = false)
    ∧ (yAxis = some "left" →
      jsHas (dropUndefined (axisIdLabelOptions metric yAxis id B))
          "visible" = false
        ∧ jsHas (dropUndefined (axisIdLabelOptions metric yAxis id B))
          "yAxis" = false) := by
  have hamV : jsAtMostOnce (axisIdLabelOptions metric yAxis id B) "visible" :=
    axis_atMostOnce metric yAxis id B hav
  have hamY : jsAtMostOnce (axisIdLabelOptions metric yAxis id B) "yAxis" :=
    axis_atMostOnce metric yAxis id B hay
  refine ⟨?_, ?_, ?_⟩
  · intro hax
    subst hax
    have hpv : jsGetVal (axisIdLabelOptions metric none id B) "visible"
        = .bool false := by
      rw [axis_getVal_visible]
      simp [strTruthy]
    have hpy : jsGetVal (axisIdLabelOptions metric none id B) "yAxis"
        = .undefined := by
      rw [axis_getVal_yAxis]
      simp [optStrVal]
    constructor
    · rw [jsGetVal_dropUndefined hamV, hpv]
      simp
    · rw [jsHas_dropUndefined hamY, hpy]
      simp
  · intro hax
    subst hax
    have hpv : jsGetVal (axisIdLabelOptions metric (some "right") id B)
        "visible" = .undefined := by
      rw [axis_getVal_visible]
      simp [strTruthy, hv]
    have hpy : jsGetVal (axisIdLabelOptions metric (some "right") id B)
        "yAxis" = .str "right" := by
      rw [axis_getVal_yAxis]
      simp [optStrVal]
    constructor
    · rw [jsGetVal_dropUndefined hamY, hpy]
      simp
    · rw [jsHas_dropUndefined hamV, hpv]
      simp
  · intro hax
    subst hax
    have hpv : jsGetVal (axisIdLabelOptions metric (some "left") id B)
        "visible" = .undefined := by
      rw [axis_getVal_visible]
      simp [strTruthy, hv]
    have hpy : jsGetVal (axisIdLabelOptions metric (some "left") id B)
        "yAxis" = .undefined := by
      rw [axis_getVal_yAxis]
      simp [hy]
    constructor
    · rw [jsHas_dropUndefined hamV, hpv]
      simp
    · rw [jsHas_dropUndefined hamY, hpy]
      simp

/-- C7: in the rendered options of an entry whose rendering properties do
not themselves carry the keys in question: `period` is present iff the
stat ref's period is present with a value other than 300 s (and then holds
that value); `stat` is present iff the statistic is present (truthy) and
not "Average" (and then holds it); a tagless entry renders
`visible: false` and no `yAxis`; tag "right" renders `yAxis: "right"` and
no `visible`; tag "left" renders neither. -/
theorem claim_C7 (metric : Metric) (yAxis id : Option String)
    (hrpP : jsHas metric.renderingProperties "period" = false)
    (hrpS : jsHas metric.renderingProperties "stat" = false)
    (hrpV : jsHas metric.renderingProperties "visible" = false)
    (hrpY : jsHas metric.renderingProperties "yAxis" = false) :
    (∀ c rp, metric = .stat c rp →
      (jsHas (metricGraphOptions metric yAxis id) "period" = true
          ↔ ∃ p, c.period = some p ∧ p ≠ 300)
        ∧ (∀ p, c.period = some p → p ≠ 300 →
            jsGetVal (metricGraphOptions metric yAxis id) "period" = .num p)
        ∧ (jsHas (metricGraphOptions metric yAxis id) "stat" = true
          ↔ strTruthy c.statistic = true ∧ c.statistic.getD "" ≠ "Average")
        ∧ (strTruthy c.statistic = true → c.statistic.getD "" ≠ "Average" →
            jsGetVal (metricGraphOptions metric yAxis id) "stat"
              = .str (c.statistic.getD "")))
    ∧ (yAxis = none →
        jsGetVal (metricGraphOptions metric yAxis id) "visible" = .bool false
          ∧ jsHas (metricGraphOptions metric yAxis id) "yAxis" = false)
    ∧ (yAxis = some "right" →
        jsGetVal (metricGraphOptions metric yAxis id) "yAxis" = .str "right"
          ∧ jsHas (metricGraphOptions metric yAxis id) "visible" = false)
    ∧ (yAxis = some "left" →
        jsHas (metricGraphOptions metric yAxis id) "visible" = false
          ∧ jsHas (metricGraphOptions metric yAxis id) "yAxis" = false) := by
  cases metric with
  | stat c rp =>
      simp only [Metric.renderingProperties] at hrpP hrpS hrpV hrpY
      have hO : metricGraphOptions (.stat c rp) yAxis id
          = dropUndefined (axisIdLabelOptions (.stat c rp) yAxis id
            (statRenderOptions c rp)) := rfl
      have hBv : jsGetVal (statRenderOptions c rp) "visible" = .undefined := by
        rw [statRender_getVal_other (by decide) (by decide) (by decide)
          (by decide), jsGetVal_of_not_has hrpV]
      have hBy : jsGetVal (statRenderOptions c rp) "yAxis" = .undefined := by
        rw [statRender_getVal_other (by decide) (by decide) (by decide)
          (by decide), jsGetVal_of_not_has hrpY]
      have hBav : jsAtMostOnce (statRenderOptions c rp) "visible" :=
        statRender_atMostOnce c rp (jsAtMostOnce_of_not_has hrpV)
      have hBay : jsAtMostOnce (statRenderOptions c rp) "yAxis" :=
        statRender_atMostOnce c rp (jsAtMostOnce_of_not_has hrpY)
      have haxis := axisParts_of_clean (.stat c rp) yAxis id
        (statRenderOptions c rp) hBv hBy hBav hBay
      have hamP : jsAtMostOnce
          (axisIdLabelOptions (.stat c rp) yAxis id (statRenderOptions c rp))
          "period" :=
        axis_atMostOnce _ yAxis id _
          (statRender_atMostOnce c rp (jsAtMostOnce_of_not_has hrpP))
      have hamS : jsAtMostOnce
          (axisIdLabelOptions (.stat c rp) yAxis id (statRenderOptions c rp))
          "stat" :=
        axis_atMostOnce _ yAxis id _
          (statRender_atMostOnce c rp (jsAtMostOnce_of_not_has hrpS))
      have hpreP : jsGetVal
          (axisIdLabelOptions (.stat c rp) yAxis id (statRenderOptions c rp))
          "period" = jsGetVal (statRenderOptions c rp) "period" :=
        axis_getVal_other (by decide) (by decide) (by decide) (by decide)
          _ yAxis id _
      have hpreS : jsGetVal
          (axisIdLabelOptions (.stat c rp) yAxis id (statRenderOptions c rp))
          "stat" = jsGetVal (statRenderOptions c rp) "stat" :=
        axis_getVal_other (by decide) (by decide) (by decide) (by decide)
          _ yAxis id _
      refine ⟨?_, haxis.1, haxis.2.1, haxis.2.2⟩
      intro c' rp' heq
      injection heq with hc hrp
      subst hc
      subst hrp
      refine ⟨?_, ?_, ?_, ?_⟩
      · rw [hO, jsHas_dropUndefined hamP, hpreP]
        cases hp : c.period with
        | none =>
            rw [statRender_getVal_period_none c rp hp,
              jsGetVal_of_not_has hrpP]
            simp
        | some p =>
            rw [statRender_getVal_period_some c rp p hp]
            by_cases h300 : p ≠ 300
            · rw [if_pos h300]
              simp [h300]
            · rw [if_neg h300, jsGetVal_of_not_has hrpP]
              simp only [ne_eq, not_not] at h300
              subst h300
              constructor
              · intro hfalse
                simp at hfalse
              · rintro ⟨p', hp', hne⟩
                injection hp' with hp'
                exact absurd hp'.symm hne
      · intro p hp h300
        rw [hO, jsGetVal_dropUndefined hamP, hpreP,
          statRender_getVal_period_some c rp p hp, if_pos h300]
        simp
      · rw [hO, jsHas_dropUndefined hamS, hpreS, statRender_getVal_stat]
        by_cases hc : strTruthy c.statistic ∧ c.statistic.getD "" ≠ "Average"
        · rw [if_pos hc]
          simp [hc]
        · rw [if_neg hc, jsGetVal_of_not_has hrpS]
          constructor
          · intro hfalse
            simp at hfalse
          · intro hcc
            exact absurd hcc hc
      · intro ht hav
        have hcc : strTruthy c.statistic = true
            ∧ c.statistic.getD "" ≠ "Average" := ⟨ht, hav⟩
        rw [hO, jsGetVal_dropUndefined hamS, hpreS, statRender_getVal_stat,
          if_pos hcc]
        simp
  | mathExpr e u rp =>
      simp only [Metric.renderingProperties] at hrpP hrpS hrpV hrpY
      have hO : metricGraphOptions (.mathExpr e u rp) yAxis id
          = dropUndefined (axisIdLabelOptions (.mathExpr e u rp) yAxis id
            (jsMapSet rp "expression" (.str e))) := rfl
      have hBv : jsGetVal (jsMapSet rp "expression" (.str e)) "visible"
          = .undefined := by
        rw [jsGetVal_jsMapSet_ne rp _ (by decide), jsGetVal_of_not_has hrpV]
      have hBy : jsGetVal (jsMapSet rp "expression" (.str e)) "yAxis"
          = .undefined := by
        rw [jsGetVal_jsMapSet_ne rp _ (by decide), jsGetVal_of_not_has hrpY]
      have hBav : jsAtMostOnce (jsMapSet rp "expression" (.str e)) "visible" :=
        jsAtMostOnce_jsMapSet _ _ (jsAtMostOnce_of_not_has hrpV)
      have hBay : jsAtMostOnce (jsMapSet rp "expression" (.str e)) "yAxis" :=
        jsAtMostOnce_jsMapSet _ _ (jsAtMostOnce_of_not_has hrpY)
      have haxis := axisParts_of_clean (.mathExpr e u rp) yAxis id
        (jsMapSet rp "expression" (.str e)) hBv hBy hBav hBay
      exact ⟨fun c' rp' heq => Metric.noConfusion heq,
        haxis.1, haxis.2.1, haxis.2.2⟩

/-- Witness for C7 at a concrete stat ref with period 60 s, statistic p90
and tag "right", with empty rendering properties. -/
theorem claim_C7_witness :
    (jsHas (metricGraphOptions
        (.stat ⟨"ns", "mn", [], some "p90", some 60, none, none⟩ [])
        (some "right") none) "period" = true
      ↔ ∃ p, (some 60 : Option Nat) = some p ∧ p ≠ 300)
    ∧ jsGetVal (metricGraphOptions
        (.stat ⟨"ns", "mn", [], some "p90", some 60, none, none⟩ [])
        (some "right") none) "period" = .num 60
    ∧ jsGetVal (metricGraphOptions
        (.stat ⟨"ns", "mn", [], some "p90", some 60, none, none⟩ [])
        (some "right") none) "yAxis" = .str "right"
    ∧ jsHas (metricGraphOptions
        (.stat ⟨"ns", "mn", [], some "p90", some 60, none, none⟩ [])
        (some "right") none) "visible" = false := by
  have h := claim_C7
    (.stat ⟨"ns", "mn", [], some "p90", some 60, none, none⟩ [])
    (some "right") none rfl rfl rfl rfl
  have hstat := h.1 _ _ rfl
  exact ⟨hstat.1, hstat.2.1 60 rfl (by decide), (h.2.2.1 rfl).1,
    (h.2.2.1 rfl).2⟩

/-! ### MetricSet step lemmas -/

theorem entryAt_eq (s : MetricSet) (j : Nat) :
    s.entryAt j = (s.metrics[j]?).getD ⟨default, none, none⟩ := by
  unfold MetricSet.entryAt
  rw [List.getD_eq_getElem?_getD]

theorem pushEntry_metrics (s : MetricSet) (m : Metric) :
    (s.pushEntry m).metrics = s.metrics ++ [⟨m, none, none⟩] := rfl

theorem pushEntry_length (s : MetricSet) (m : Metric) :
    (s.pushEntry m).metrics.length = s.metrics.length + 1 := by
  rw [pushEntry_metrics, List.length_append]
  rfl

theorem pushEntry_entryAt_lt (s : MetricSet) (m : Metric) {j : Nat}
    (h : j < s.metrics.length) : (s.pushEntry m).entryAt j = s.entryAt j := by
  rw [entryAt_eq, entryAt_eq, pushEntry_metrics, List.getElem?_append_left h]

theorem pushEntry_entryAt_len (s : MetricSet) (m : Metric) :
    (s.pushEntry m).entryAt s.metrics.length = ⟨m, none, none⟩ := by
  rw [entryAt_eq, pushEntry_metrics, List.getElem?_concat_length]
  rfl

theorem pushEntry_byId (s : MetricSet) (m : Metric) :
    (s.pushEntry m).metricById = s.metricById := rfl

theorem pushEntry_byKey (s : MetricSet) (m : Metric) :
    (s.pushEntry m).metricByKey
      = jsMapSet s.metricByKey (metricKey m) s.metrics.length := rfl

theorem bindId_cases (s : MetricSet) (j : Nat) (id : Option String) :
    (¬ strTruthy (s.entryAt j).id ∧ strTruthy id
      ∧ s.bindId j id
        = { s with
            metrics := s.metrics.set j { s.entryAt j with id := id },
            metricById := jsMapSet s.metricById (id.getD "") j })
    ∨ ((strTruthy (s.entryAt j).id ∨ ¬ strTruthy id)
      ∧ s.bindId j id = s) := by
  unfold MetricSet.bindId
  by_cases h : ¬ strTruthy (s.entryAt j).id ∧ strTruthy id
  · left
    exact ⟨h.1, h.2, by rw [if_pos h]⟩
  · right
    refine ⟨?_, by rw [if_neg h]⟩
    by_cases h1 : strTruthy (s.entryAt j).id
    · exact Or.inl h1
    · refine Or.inr ?_
      intro h2
      exact h ⟨h1, h2⟩

theorem bindTag_cases (s : MetricSet) (j : Nat) (tag : Option String) :
    (¬ strTruthy (s.entryAt j).tag ∧ strTruthy tag
      ∧ s.bindTag j tag
        = { s with metrics := s.metrics.set j { s.entryAt j with tag := tag } })
    ∨ ((strTruthy (s.entryAt j).tag ∨ ¬ strTruthy tag)
      ∧ s.bindTag j tag = s) := by
  unfold MetricSet.bindTag
  by_cases h : ¬ strTruthy (s.entryAt j).tag ∧ strTruthy tag
  · left
    exact ⟨h.1, h.2, by rw [if_pos h]⟩
  · right
    refine ⟨?_, by rw [if_neg h]⟩
    by_cases h1 : strTruthy (s.entryAt j).tag
    · exact Or.inl h1
    · refine Or.inr ?_
      intro h2
      exact h ⟨h1, h2⟩

theorem set_entryAt_self (s : MetricSet) (j : Nat) (e : MetricEntry)
    (bid bkey : List (String × Nat)) (h : j < s.metrics.length) :
    (MetricSet.mk (s.metrics.set j e) bid bkey).entryAt j = e := by
  rw [entryAt_eq]
  show ((s.metrics.set j e)[j]?).getD _ = e
  rw [List.getElem?_set_self h]
  rfl

theorem set_entryAt_other (s : MetricSet) (j j' : Nat) (e : MetricEntry)
    (bid bkey : List (String × Nat)) (h : j' ≠ j) :
    (MetricSet.mk (s.metrics.set j e) bid bkey).entryAt j'
      = s.entryAt j' := by
  rw [entryAt_eq, entryAt_eq]
  show ((s.metrics.set j e)[j']?).getD _ = _
  rw [List.getElem?_set_ne (fun hc => h hc.symm)]

theorem lookupById_spec (s : MetricSet) (key : String) (id : Option String) :
    (strTruthy id = false ∧ s.lookupById key id = .ok none)
    ∨ (strTruthy id = true ∧ jsMapGet s.metricById (id.getD "") = none
        ∧ s.lookupById key id = .ok none)
    ∨ (∃ j, strTruthy id = true
        ∧ jsMapGet s.metricById (id.getD "") = some j
        ∧ metricKey (s.entryAt j).metric = key
        ∧ s.lookupById key id = .ok (some j))
    ∨ (∃ j, strTruthy id = true
        ∧ jsMapGet s.metricById (id.getD "") = some j
        ∧ metricKey (s.entryAt j).metric ≠ key
        ∧ s.lookupById key id
          = .error "Can't happen, already checked elsewhere") := by
  by_cases ht : strTruthy id
  · cases hg : jsMapGet s.metricById (id.getD "") with
    | none =>
        right; left
        refine ⟨ht, rfl, ?_⟩
        unfold MetricSet.lookupById
        rw [if_pos ht, hg]
        simp only []
        rfl
    | some j =>
        by_cases hk : metricKey (s.entryAt j).metric ≠ key
        · right; right; right
          refine ⟨j, ht, rfl, hk, ?_⟩
          unfold MetricSet.lookupById
          rw [if_pos ht, hg]
          simp only []
          rw [if_pos hk]
          rfl
        · right; right; left
          refine ⟨j, ht, rfl, by simpa using hk, ?_⟩
          unfold MetricSet.lookupById
          rw [if_pos ht, hg]
          simp only []
          rw [if_neg hk]
          rfl
  · left
    refine ⟨by simpa using ht, ?_⟩
    unfold MetricSet.lookupById
    rw [if_neg ht]
    rfl

theorem resolveEntry_eq (s : MetricSet) (m : Metric) (tag id : Option String) :
    s.resolveEntry m tag id
      = match s.lookupById (metricKey m) id with
        | .error e => .error e
        | .ok byId =>
            match (match byId with
              | some j => some j
              | none => s.lookupByKey (metricKey m) id) with
            | some j => .ok ((s.bindId j id).bindTag j tag)
            | none => .ok (((s.pushEntry m).bindId s.metrics.length id).bindTag
                s.metrics.length tag) := by
  unfold MetricSet.resolveEntry
  simp only []
  cases s.lookupById (metricKey m) id with
  | error e => rfl
  | ok r =>
      cases r with
      | some j => rfl
      | none =>
          cases s.lookupByKey (metricKey m) id with
          | some j => rfl
          | none => rfl

theorem resolveEntry_ok_cases {s : MetricSet} {m : Metric}
    {tag id : Option String} {s' : MetricSet}
    (h : s.resolveEntry m tag id = .ok s') :
    (∃ j, ((strTruthy id = true
          ∧ jsMapGet s.metricById (id.getD "") = some j
          ∧ metricKey (s.entryAt j).metric = metricKey m)
        ∨ ((strTruthy id = false
            ∨ jsMapGet s.metricById (id.getD "") = none)
          ∧ s.lookupByKey (metricKey m) id = some j))
      ∧ s' = (s.bindId j id).bindTag j tag)
    ∨ ((strTruthy id = false ∨ jsMapGet s.metricById (id.getD "") = none)
        ∧ s.lookupByKey (metricKey m) id = none
        ∧ s' = ((s.pushEntry m).bindId s.metrics.length id).bindTag
            s.metrics.length tag) := by
  rw [resolveEntry_eq] at h
  rcases lookupById_spec s (metricKey m) id with
    ⟨ht, hres⟩ | ⟨ht, hg, hres⟩ | ⟨j, ht, hg, hk, hres⟩ | ⟨j, ht, hg, hk, hres⟩
  · rw [hres] at h
    simp only [] at h
    cases hlk : s.lookupByKey (metricKey m) id with
    | some j =>
        rw [hlk] at h
        simp only [] at h
        injection h with h
        exact Or.inl ⟨j, Or.inr ⟨Or.inl ht, rfl⟩, h.symm⟩
    | none =>
        rw [hlk] at h
        simp only [] at h
        injection h with h
        exact Or.inr ⟨Or.inl ht, rfl, h.symm⟩
  · rw [hres] at h
    simp only [] at h
    cases hlk : s.lookupByKey (metricKey m) id with
    | some j =>
        rw [hlk] at h
        simp only [] at h
        injection h with h
        exact Or.inl ⟨j, Or.inr ⟨Or.inr hg, rfl⟩, h.symm⟩
    | none =>
        rw [hlk] at h
        simp only [] at h
        injection h with h
        exact Or.inr ⟨Or.inr hg, rfl, h.symm⟩
  · rw [hres] at h
    simp only [] at h
    injection h with h
    exact Or.inl ⟨j, Or.inl ⟨ht, hg, hk⟩, h.symm⟩
  · rw [hres] at h
    exact Except.noConfusion h

theorem strTruthy_true_iff (x : Option String) :
    strTruthy x = true ↔ ∃ s, x = some s ∧ s ≠ "" := by
  cases x <;> simp [strTruthy]

theorem evolves_refl (s : MetricSet) : SetEvolves s s := by
  refine ⟨Nat.le_refl _, fun j hj => ⟨rfl, fun _ => rfl, fun h0 => Or.inl h0,
    fun _ => rfl⟩⟩

theorem evolves_trans {s₁ s₂ s₃ : MetricSet} (h₁ : SetEvolves s₁ s₂)
    (h₂ : SetEvolves s₂ s₃) : SetEvolves s₁ s₃ := by
  obtain ⟨hl₁, he₁⟩ := h₁
  obtain ⟨hl₂, he₂⟩ := h₂
  refine ⟨Nat.le_trans hl₁ hl₂, fun j hj => ?_⟩
  have hj₂ : j < s₂.metrics.length := Nat.lt_of_lt_of_le hj hl₁
  obtain ⟨hm₁, hid₁, hidn₁, ht₁⟩ := he₁ j hj
  obtain ⟨hm₂, hid₂, hidn₂, ht₂⟩ := he₂ j hj₂
  refine ⟨?_, ?_, ?_, ?_⟩
  · rw [hm₂, hm₁]
  · intro htr
    have h12 := hid₁ htr
    have htr₂ : strTruthy (s₂.entryAt j).id = true := by rw [h12]; exact htr
    rw [hid₂ htr₂, h12]
  · intro h0
    rcases hidn₁ h0 with h1 | ⟨i, hi, hne⟩
    · rcases hidn₂ h1 with h2 | ⟨i, hi, hne⟩
      · exact Or.inl h2
      · exact Or.inr ⟨i, hi, hne⟩
    · have htr₂ : strTruthy (s₂.entryAt j).id = true := by
        rw [hi]
        simp [strTruthy, hne]
      exact Or.inr ⟨i, by rw [hid₂ htr₂, hi], hne⟩
  · intro htr
    have h12 := ht₁ htr
    have htr₂ : strTruthy (s₂.entryAt j).tag = true := by rw [h12]; exact htr
    rw [ht₂ htr₂, h12]

theorem pushEntry_evolves (s : MetricSet) (m : Metric) :
    SetEvolves s (s.pushEntry m) := by
  refine ⟨by rw [pushEntry_length]; exact Nat.le_succ _, fun j hj => ?_⟩
  rw [pushEntry_entryAt_lt s m hj]
  exact ⟨rfl, fun _ => rfl, fun h0 => Or.inl h0, fun _ => rfl⟩

theorem bindId_evolves (s : MetricSet) (j : Nat) (id : Option String) :
    SetEvolves s (s.bindId j id) := by
  rcases bindId_cases s j id with ⟨hold, hnew, heq⟩ | ⟨_, heq⟩
  · rw [heq]
    refine ⟨by rw [List.length_set], fun j' hj' => ?_⟩
    by_cases hjj : j' = j
    · subst hjj
      rw [show (MetricSet.mk (s.metrics.set j' { s.entryAt j' with id := id })
            (jsMapSet s.metricById (id.getD "") j') s.metricByKey).entryAt j'
          = { s.entryAt j' with id := id } from
        set_entryAt_self s j' _ _ _ hj']
      refine ⟨rfl, fun htr => absurd htr (by simpa using hold), ?_,
        fun htr => rfl⟩
      intro h0
      obtain ⟨x, hx, hxe⟩ := (strTruthy_true_iff id).1 hnew
      exact Or.inr ⟨x, by simpa using hx, hxe⟩
    · rw [set_entryAt_other s j j' _ _ _ hjj]
      exact ⟨rfl, fun _ => rfl, fun h0 => Or.inl h0, fun _ => rfl⟩
  · rw [heq]
    exact evolves_refl s

theorem bindTag_evolves (s : MetricSet) (j : Nat) (tag : Option String) :
    SetEvolves s (s.bindTag j tag) := by
  rcases bindTag_cases s j tag with ⟨hold, hnew, heq⟩ | ⟨_, heq⟩
  · rw [heq]
    refine ⟨by rw [List.length_set], fun j' hj' => ?_⟩
    by_cases hjj : j' = j
    · subst hjj
      rw [show (MetricSet.mk (s.metrics.set j' { s.entryAt j' with tag := tag })
            s.metricById s.metricByKey).entryAt j'
          = { s.entryAt j' with tag := tag } from
        set_entryAt_self s j' _ _ _ hj']
      exact ⟨rfl, fun htr => rfl, fun h0 => Or.inl h0,
        fun htr => absurd htr (by simpa using hold)⟩
    · rw [set_entryAt_other s j j' _ _ _ hjj]
      exact ⟨rfl, fun _ => rfl, fun h0 => Or.inl h0, fun _ => rfl⟩
  · rw [heq]
    exact evolves_refl s

theorem resolveEntry_evolves {s : MetricSet} {m : Metric}
    {tag id : Option String} {s' : MetricSet}
    (h : s.resolveEntry m tag id = .ok s') : SetEvolves s s' := by
  rcases resolveEntry_ok_cases h with ⟨j, _, heq⟩ | ⟨_, _, heq⟩
  · rw [heq]
    exact evolves_trans (bindId_evolves s j id)
      (bindTag_evolves (s.bindId j id) j tag)
  · rw [heq]
    exact evolves_trans (pushEntry_evolves s m)
      (evolves_trans (bindId_evolves (s.pushEntry m) s.metrics.length id)
        (bindTag_evolves ((s.pushEntry m).bindId s.metrics.length id)
          s.metrics.length tag))

theorem addOne_eq (s : MetricSet) (m : Metric) (tag id : Option String) :
    MetricSet.addOne s m tag id
      = match s.resolveEntry m tag id with
        | .error e => .error e
        | .ok s₁ =>
            match m with
            | .stat _ _ => .ok s₁
            | .mathExpr _ u _ => MetricSet.addChildren s₁ u := by
  unfold MetricSet.addOne
  cases s.resolveEntry m tag id with
  | error e => cases m <;> rfl
  | ok s₁ => cases m <;> rfl

mutual
theorem addOne_evolves (m : Metric) : ∀ (s : MetricSet)
    (tag id : Option String) (s' : MetricSet),
    MetricSet.addOne s m tag id = .ok s' → SetEvolves s s' := by
  intro s tag id s' h
  rw [addOne_eq] at h
  cases hres : s.resolveEntry m tag id with
  | error e =>
      rw [hres] at h
      exact Except.noConfusion h
  | ok s₁ =>
      rw [hres] at h
      simp only [] at h
      cases m with
      | stat c rp =>
          simp only [] at h
          injection h with h
          rw [← h]
          exact resolveEntry_evolves hres
      | mathExpr e u rp =>
          simp only [] at h
          exact evolves_trans (resolveEntry_evolves hres)
            (addChildren_evolves u s₁ s' h)

theorem addChildren_evolves (u : UsingMetrics) : ∀ (s s' : MetricSet),
    MetricSet.addChildren s u = .ok s' → SetEvolves s s' := by
  intro s s' h
  cases u with
  | nil =>
      unfold MetricSet.addChildren at h
      injection h with h
      rw [← h]
      exact evolves_refl s
  | cons subId subMetric rest =>
      unfold MetricSet.addChildren at h
      cases hone : MetricSet.addOne s subMetric none (some subId) with
      | error e =>
          rw [hone] at h
          exact Except.noConfusion h
      | ok s₁ =>
          rw [hone] at h
          simp only [bind, Except.bind] at h
          exact evolves_trans (addOne_evolves subMetric s none (some subId)
            s₁ hone) (addChildren_evolves rest s₁ s' h)
end

theorem addTopLevel_single (s : MetricSet) (t : String) (m : Metric) :
    MetricSet.addTopLevel s t [m] = MetricSet.addOne s m (some t) none := by
  unfold MetricSet.addTopLevel
  show (MetricSet.addOne s m (some t) none).bind
      (fun s => (pure s : Except String MetricSet)) = _
  cases MetricSet.addOne s m (some t) none <;> rfl

theorem addTopLevel_merge_stat (cA cB : MetricStatConfig) (rpA rpB : JsObj)
    (tA tB : String) (htA : tA ≠ "")
    (hk : metricKey (.stat cB rpB) = metricKey (.stat cA rpA)) :
    MetricSet.addTopLevel
      ⟨[⟨.stat cA rpA, some tA, none⟩], [],
       [(metricKey (.stat cA rpA), 0)]⟩ tB [Metric.stat cB rpB]
      = .ok ⟨[⟨.stat cA rpA, some tA, none⟩], [],
             [(metricKey (.stat cA rpA), 0)]⟩ := by
  have htA' : (tA == "") = false := beq_eq_false_iff_ne.mpr htA
  simp [MetricSet.addTopLevel, List.foldlM, MetricSet.addOne,
    MetricSet.resolveEntry, MetricSet.lookupById, MetricSet.lookupByKey,
    MetricSet.pushEntry, MetricSet.bindId, MetricSet.bindTag,
    MetricSet.entryAt, strTruthy, jsMapGet, jsMapSet, List.find?, hk, htA',
    bind, Except.bind, pure, Except.pure]

/-- C6: registering the same stat ref (by structural key) top level under
two tags yields one entry tagged with the first tag; and once an entry's
tag is truthy, no later registration changes it. -/
theorem claim_C6 :
    (∀ (cA cB : MetricStatConfig) (rpA rpB : JsObj) (tA tB : String),
      tA ≠ "" → tB ≠ "" →
      metricKey (.stat cB rpB) = metricKey (.stat cA rpA) →
      ∃ s, (do
          let s₁ ← MetricSet.empty.addTopLevel tA [Metric.stat cA rpA]
          s₁.addTopLevel tB [Metric.stat cB rpB]) = .ok s
        ∧ s.metrics.length = 1 ∧ (s.entryAt 0).tag = some tA)
    ∧ (∀ (s : MetricSet) (m : Metric) (tag id : Option String)
        (s' : MetricSet), MetricSet.addOne s m tag id = .ok s' →
        ∀ j, j < s.metrics.length → strTruthy (s.entryAt j).tag = true →
          (s'.entryAt j).tag = (s.entryAt j).tag) := by
  constructor
  · intro cA cB rpA rpB tA tB htA htB hk
    have h1 := addTopLevel_empty_stat cA rpA tA htA
    have h2 := addTopLevel_merge_stat cA cB rpA rpB tA tB htA hk
    refine ⟨⟨[⟨.stat cA rpA, some tA, none⟩], [],
      [(metricKey (.stat cA rpA), 0)]⟩, ?_, rfl, rfl⟩
    rw [show (do
        let s₁ ← MetricSet.empty.addTopLevel tA [Metric.stat cA rpA]
        s₁.addTopLevel tB [Metric.stat cB rpB])
      = (MetricSet.empty.addTopLevel tA [Metric.stat cA rpA]).bind
          (fun s₁ => s₁.addTopLevel tB [Metric.stat cB rpB]) from rfl,
      h1]
    exact h2
  · intro s m tag id s' h j hj htr
    exact ((addOne_evolves m s tag id s' h).2 j hj).2.2.2 htr

/-- Witness for C6 at concrete inputs: two registrations of statAConf under
"left" then "right" keep one entry tagged "left"; and a later, different
registration leaves the "left" tag of entry 0 unchanged. -/
theorem claim_C6_witness :
    (∃ s, (do
        let s₁ ← MetricSet.empty.addTopLevel "left" [Metric.stat statAConf []]
        s₁.addTopLevel "right" [Metric.stat statAConf []]) = .ok s
      ∧ s.metrics.length = 1 ∧ (s.entryAt 0).tag = some "left")
    ∧ ((⟨[⟨statA, some "left", none⟩, ⟨statB, some "right", none⟩], [],
          [(metricKey statA, 0), (metricKey statB, 1)]⟩ : MetricSet).entryAt
        0).tag
      = ((⟨[⟨statA, some "left", none⟩], [],
          [(metricKey statA, 0)]⟩ : MetricSet).entryAt 0).tag := by
  constructor
  · exact claim_C6.1 statAConf statAConf [] [] "left" "right" (by decide)
      (by decide) rfl
  · have hadd : MetricSet.addOne
        ⟨[⟨statA, some "left", none⟩], [], [(metricKey statA, 0)]⟩
        statB (some "right") none
        = .ok ⟨[⟨statA, some "left", none⟩, ⟨statB, some "right", none⟩], [],
            [(metricKey statA, 0), (metricKey statB, 1)]⟩ := by
      have h := addTopLevel_second_stat statAConf statBConf [] [] "left"
        "right" (by decide) (by decide)
      rw [addTopLevel_single] at h
      exact h
    exact claim_C6.2 _ statB (some "right") none _ hadd 0 (by decide)
      (by decide)

theorem bindId_length (s : MetricSet) (j : Nat) (id : Option String) :
    (s.bindId j id).metrics.length = s.metrics.length := by
  rcases bindId_cases s j id with ⟨_, _, heq⟩ | ⟨_, heq⟩ <;>
    rw [heq] <;> simp [List.length_set]

theorem bindTag_length (s : MetricSet) (j : Nat) (tag : Option String) :
    (s.bindTag j tag).metrics.length = s.metrics.length := by
  rcases bindTag_cases s j tag with ⟨_, _, heq⟩ | ⟨_, heq⟩ <;>
    rw [heq] <;> simp [List.length_set]

theorem bindId_entryAt_metric (s : MetricSet) (j : Nat) (id : Option String)
    (j' : Nat) :
    ((s.bindId j id).entryAt j').metric = (s.entryAt j').metric := by
  rcases bindId_cases s j id with ⟨_, _, heq⟩ | ⟨_, heq⟩
  · rw [heq]
    by_cases hjj : j' = j
    · subst hjj
      by_cases hlt : j' < s.metrics.length
      · rw [set_entryAt_self s j' _ _ _ hlt]
      · rw [List.set_eq_of_length_le (Nat.le_of_not_lt hlt)]
        rfl
    · rw [set_entryAt_other s j j' _ _ _ hjj]
  · rw [heq]

theorem bindTag_entryAt_metric (s : MetricSet) (j : Nat) (tag : Option String)
    (j' : Nat) :
    ((s.bindTag j tag).entryAt j').metric = (s.entryAt j').metric := by
  rcases bindTag_cases s j tag with ⟨_, _, heq⟩ | ⟨_, heq⟩
  · rw [heq]
    by_cases hjj : j' = j
    · subst hjj
      by_cases hlt : j' < s.metrics.length
      · rw [set_entryAt_self s j' _ _ _ hlt]
      · rw [List.set_eq_of_length_le (Nat.le_of_not_lt hlt)]
    · rw [set_entryAt_other s j j' _ _ _ hjj]
  · rw [heq]

/-- C5: the entry-resolution step of `addOne` (the source's lines 140-171):
with a supplied identifier that is not yet bound and a key-matched entry
that already carries a (necessarily different) identifier, a new separate
entry is appended; in every other case of the claim — the key-matched
entry has no identifier, no identifier was supplied, or the identifier
lookup finds the same entry with a matching key — the registration merges
into the existing entry and appends nothing. -/
theorem claim_C5 :
    (∀ (s : MetricSet) (m : Metric) (tag id : Option String) (j : Nat),
      strTruthy id = true →
      jsMapGet s.metricById (id.getD "") = none →
      jsMapGet s.metricByKey (metricKey m) = some j →
      strTruthy (s.entryAt j).id = true →
      ∃ s', s.resolveEntry m tag id = .ok s'
        ∧ s'.metrics.length = s.metrics.length + 1
        ∧ (s'.entryAt s.metrics.length).metric = m
        ∧ ∀ j', j' < s.metrics.length →
            (s'.entryAt j').metric = (s.entryAt j').metric)
    ∧ (∀ (s : MetricSet) (m : Metric) (tag id : Option String) (j : Nat),
      (strTruthy id = false ∨ jsMapGet s.metricById (id.getD "") = none) →
      jsMapGet s.metricByKey (metricKey m) = some j →
      strTruthy (s.entryAt j).id = false →
      ∃ s', s.resolveEntry m tag id = .ok s'
        ∧ s'.metrics.length = s.metrics.length
        ∧ ∀ j', (s'.entryAt j').metric = (s.entryAt j').metric)
    ∧ (∀ (s : MetricSet) (m : Metric) (tag id : Option String) (j : Nat),
      strTruthy id = false →
      jsMapGet s.metricByKey (metricKey m) = some j →
      ∃ s', s.resolveEntry m tag id = .ok s'
        ∧ s'.metrics.length = s.metrics.length
        ∧ ∀ j', (s'.entryAt j').metric = (s.entryAt j').metric)
    ∧ (∀ (s : MetricSet) (m : Metric) (tag id : Option String) (j : Nat),
      strTruthy id = true →
      jsMapGet s.metricById (id.getD "") = some j →
      (s.entryAt j).id = id →
      metricKey (s.entryAt j).metric = metricKey m →
      ∃ s', s.resolveEntry m tag id = .ok s'
        ∧ s'.metrics.length = s.metrics.length
        ∧ ∀ j', (s'.entryAt j').metric = (s.entryAt j').metric) := by
  have hbyid_none : ∀ (s : MetricSet) (key : String) (id : Option String),
      (strTruthy id = false ∨ jsMapGet s.metricById (id.getD "") = none) →
      s.lookupById key id = .ok none := by
    intro s key id h
    unfold MetricSet.lookupById
    rcases h with h | h
    · rw [if_neg (by simp [h])]
      rfl
    · by_cases ht : strTruthy id
      · rw [if_pos ht, h]
        rfl
      · rw [if_neg ht]
        rfl
  have hmerge : ∀ (s : MetricSet) (m : Metric) (tag id : Option String)
      (j : Nat),
      ∃ s', (s.bindId j id).bindTag j tag = s'
        ∧ s'.metrics.length = s.metrics.length
        ∧ ∀ j', (s'.entryAt j').metric = (s.entryAt j').metric := by
    intro s m tag id j
    refine ⟨(s.bindId j id).bindTag j tag, rfl, ?_, ?_⟩
    · rw [bindTag_length, bindId_length]
    · intro j'
      rw [bindTag_entryAt_metric, bindId_entryAt_metric]
  refine ⟨?_, ?_, ?_, ?_⟩
  · intro s m tag id j hid hbid hbkey hjid
    have hres : s.resolveEntry m tag id
        = .ok (((s.pushEntry m).bindId s.metrics.length id).bindTag
            s.metrics.length tag) := by
      rw [resolveEntry_eq, hbyid_none s (metricKey m) id (Or.inr hbid)]
      simp only []
      unfold MetricSet.lookupByKey
      rw [hbkey]
      simp only []
      rw [if_pos ⟨hjid, hid⟩]
    refine ⟨_, hres, ?_, ?_, ?_⟩
    · rw [bindTag_length, bindId_length, pushEntry_length]
    · rw [bindTag_entryAt_metric, bindId_entryAt_metric,
        pushEntry_entryAt_len]
    · intro j' hj'
      rw [bindTag_entryAt_metric, bindId_entryAt_metric,
        pushEntry_entryAt_lt s m hj']
  · intro s m tag id j hid hbkey hjid
    have hres : s.resolveEntry m tag id
        = .ok ((s.bindId j id).bindTag j tag) := by
      rw [resolveEntry_eq, hbyid_none s (metricKey m) id hid]
      simp only []
      unfold MetricSet.lookupByKey
      rw [hbkey]
      simp only []
      rw [if_neg (by simp [hjid])]
    obtain ⟨s', hs', hlen, hmet⟩ := hmerge s m tag id j
    exact ⟨s', by rw [hres, hs'], hlen, hmet⟩
  · intro s m tag id j hid hbkey
    have hres : s.resolveEntry m tag id
        = .ok ((s.bindId j id).bindTag j tag) := by
      rw [resolveEntry_eq, hbyid_none s (metricKey m) id (Or.inl hid)]
      simp only []
      unfold MetricSet.lookupByKey
      rw [hbkey]
      simp only []
      rw [if_neg (by simp [hid])]
    obtain ⟨s', hs', hlen, hmet⟩ := hmerge s m tag id j
    exact ⟨s', by rw [hres, hs'], hlen, hmet⟩
  · intro s m tag id j hid hbid hsame hkey
    have hres : s.resolveEntry m tag id
        = .ok ((s.bindId j id).bindTag j tag) := by
      rw [resolveEntry_eq]
      have : s.lookupById (metricKey m) id = .ok (some j) := by
        unfold MetricSet.lookupById
        rw [if_pos hid, hbid]
        simp only []
        rw [if_neg (by simp [hkey])]
        rfl
      rw [this]
    obtain ⟨s', hs', hlen, hmet⟩ := hmerge s m tag id j
    exact ⟨s', by rw [hres, hs'], hlen, hmet⟩

/-- Witness for C5 at concrete inputs, hitting the new-entry case and the
three merge cases. -/
theorem claim_C5_witness :
    (∃ s', MetricSet.resolveEntry
        ⟨[⟨statA, none, some "a"⟩], [("a", 0)], [(metricKey statA, 0)]⟩
        statA none (some "b") = .ok s'
      ∧ s'.metrics.length = 1 + 1
      ∧ (s'.entryAt 1).metric = statA
      ∧ ∀ j', j' < 1 → (s'.entryAt j').metric
          = ((⟨[⟨statA, none, some "a"⟩], [("a", 0)],
              [(metricKey statA, 0)]⟩ : MetricSet).entryAt j').metric)
    ∧ (∃ s', MetricSet.resolveEntry
        ⟨[⟨statA, none, none⟩], [], [(metricKey statA, 0)]⟩
        statA none (some "b") = .ok s'
      ∧ s'.metrics.length = 1
      ∧ ∀ j', (s'.entryAt j').metric
          = ((⟨[⟨statA, none, none⟩], [],
              [(metricKey statA, 0)]⟩ : MetricSet).entryAt j').metric)
    ∧ (∃ s', MetricSet.resolveEntry
        ⟨[⟨statA, none, some "a"⟩], [("a", 0)], [(metricKey statA, 0)]⟩
        statA (some "left") none = .ok s'
      ∧ s'.metrics.length = 1
      ∧ ∀ j', (s'.entryAt j').metric
          = ((⟨[⟨statA, none, some "a"⟩], [("a", 0)],
              [(metricKey statA, 0)]⟩ : MetricSet).entryAt j').metric)
    ∧ (∃ s', MetricSet.resolveEntry
        ⟨[⟨statA, none, some "a"⟩], [("a", 0)], [(metricKey statA, 0)]⟩
        statA none (some "a") = .ok s'
      ∧ s'.metrics.length = 1
      ∧ ∀ j', (s'.entryAt j').metric
          = ((⟨[⟨statA, none, some "a"⟩], [("a", 0)],
              [(metricKey statA, 0)]⟩ : MetricSet).entryAt j').metric) := by
  refine ⟨?_, ?_, ?_, ?_⟩
  · exact claim_C5.1 _ statA none (some "b") 0 rfl (by simp [jsMapGet])
      (by simp [jsMapGet, List.find?]) rfl
  · exact claim_C5.2.1 _ statA none (some "b") 0 (Or.inr rfl)
      (by simp [jsMapGet, List.find?]) rfl
  · exact claim_C5.2.2.1 _ statA (some "left") none 0 rfl
      (by simp [jsMapGet, List.find?])
  · exact claim_C5.2.2.2 _ statA none (some "a") 0 rfl
      (by simp [jsMapGet, List.find?]) rfl rfl

/-! ### The identifier bookkeeping invariant -/

theorem jsMapGet_jsMapSet_cases {α : Type} {o : List (String × α)}
    {k k' : String} {v w : α}
    (h : jsMapGet (jsMapSet o k v) k' = some w) :
    (k' = k ∧ w = v) ∨ (k' ≠ k ∧ jsMapGet o k' = some w) := by
  by_cases hk : k' = k
  · subst hk
    rw [jsMapGet_jsMapSet_self] at h
    injection h with h
    exact Or.inl ⟨rfl, h.symm⟩
  · rw [jsMapGet_jsMapSet_ne o v hk] at h
    exact Or.inr ⟨hk, h⟩

theorem setInv_empty : SetInv MetricSet.empty := by
  refine ⟨?_, ?_, ?_, ?_, ?_⟩
  · intro i j hg
    simp [MetricSet.empty, jsMapGet] at hg
  · intro i j hg
    simp [MetricSet.empty, jsMapGet] at hg
  · intro j hj
    simp [MetricSet.empty] at hj
  · intro j hj
    simp [MetricSet.empty] at hj
  · intro k j hg
    simp [MetricSet.empty, jsMapGet] at hg

theorem bindTag_entryAt_id (s : MetricSet) (j : Nat) (tag : Option String)
    (j' : Nat) :
    ((s.bindTag j tag).entryAt j').id = (s.entryAt j').id := by
  rcases bindTag_cases s j tag with ⟨_, _, heq⟩ | ⟨_, heq⟩
  · rw [heq]
    by_cases hjj : j' = j
    · subst hjj
      by_cases hlt : j' < s.metrics.length
      · rw [set_entryAt_self s j' _ _ _ hlt]
      · rw [List.set_eq_of_length_le (Nat.le_of_not_lt hlt)]
    · rw [set_entryAt_other s j j' _ _ _ hjj]
  · rw [heq]

theorem bindTag_byId (s : MetricSet) (j : Nat) (tag : Option String) :
    (s.bindTag j tag).metricById = s.metricById := by
  rcases bindTag_cases s j tag with ⟨_, _, heq⟩ | ⟨_, heq⟩ <;> rw [heq]

theorem bindTag_byKey (s : MetricSet) (j : Nat) (tag : Option String) :
    (s.bindTag j tag).metricByKey = s.metricByKey := by
  rcases bindTag_cases s j tag with ⟨_, _, heq⟩ | ⟨_, heq⟩ <;> rw [heq]

theorem bindTag_inv {s : MetricSet} (j : Nat) (tag : Option String)
    (h : SetInv s) : SetInv (s.bindTag j tag) := by
  refine ⟨?_, ?_, ?_, ?_, ?_⟩
  · intro i j' hg
    rw [bindTag_byId] at hg
    rw [bindTag_length]
    exact h.byId_lt i j' hg
  · intro i j' hg
    rw [bindTag_byId] at hg
    rw [bindTag_entryAt_id]
    exact h.byId_sound i j' hg
  · intro j' hj' i hid
    rw [bindTag_entryAt_id] at hid
    rw [bindTag_byId]
    rw [bindTag_length] at hj'
    exact h.id_complete j' hj' i hid
  · intro j' hj' i hid
    rw [bindTag_entryAt_id] at hid
    rw [bindTag_length] at hj'
    exact h.ids_truthy j' hj' i hid
  · intro k j' hg
    rw [bindTag_byKey] at hg
    rw [bindTag_length]
    exact h.byKey_lt k j' hg

theorem pushEntry_inv {s : MetricSet} (m : Metric) (h : SetInv s) :
    SetInv (s.pushEntry m) := by
  refine ⟨?_, ?_, ?_, ?_, ?_⟩
  · intro i j hg
    rw [pushEntry_byId] at hg
    rw [pushEntry_length]
    exact Nat.lt_succ_of_lt (h.byId_lt i j hg)
  · intro i j hg
    rw [pushEntry_byId] at hg
    rw [pushEntry_entryAt_lt s m (h.byId_lt i j hg)]
    exact h.byId_sound i j hg
  · intro j hj i hid
    rw [pushEntry_byId]
    rw [pushEntry_length] at hj
    rcases Nat.lt_succ_iff_lt_or_eq.1 hj with hlt | heq
    · rw [pushEntry_entryAt_lt s m hlt] at hid
      exact h.id_complete j hlt i hid
    · subst heq
      rw [pushEntry_entryAt_len] at hid
      exact Option.noConfusion hid
  · intro j hj i hid
    rw [pushEntry_length] at hj
    rcases Nat.lt_succ_iff_lt_or_eq.1 hj with hlt | heq
    · rw [pushEntry_entryAt_lt s m hlt] at hid
      exact h.ids_truthy j hlt i hid
    · subst heq
      rw [pushEntry_entryAt_len] at hid
      exact Option.noConfusion hid
  · intro k j hg
    rw [pushEntry_byKey] at hg
    rw [pushEntry_length]
    rcases jsMapGet_jsMapSet_cases hg with ⟨_, hj⟩ | ⟨_, hold⟩
    · subst hj
      exact Nat.lt_succ_self _
    · exact Nat.lt_succ_of_lt (h.byKey_lt k j hold)

theorem bindId_inv {s : MetricSet} {j : Nat} {id : Option String}
    (hj : j < s.metrics.length)
    (hfree : strTruthy id = true → strTruthy (s.entryAt j).id = false →
      jsMapGet s.metricById (id.getD "") = none)
    (h : SetInv s) : SetInv (s.bindId j id) := by
  rcases bindId_cases s j id with ⟨hold, hnew, heq⟩ | ⟨_, heq⟩
  · obtain ⟨x, hx, hxe⟩ := (strTruthy_true_iff id).1 hnew
    have hxd : id.getD "" = x := by rw [hx]; rfl
    have hnone : jsMapGet s.metricById x = none := by
      rw [← hxd]
      exact hfree hnew (by simpa using hold)
    rw [heq]
    have hlen : (MetricSet.mk (s.metrics.set j { s.entryAt j with id := id })
        (jsMapSet s.metricById (id.getD "") j) s.metricByKey).metrics.length
        = s.metrics.length := by
      simp [List.length_set]
    have hself : (MetricSet.mk (s.metrics.set j { s.entryAt j with id := id })
        (jsMapSet s.metricById (id.getD "") j) s.metricByKey).entryAt j
        = { s.entryAt j with id := id } := set_entryAt_self s j _ _ _ hj
    refine ⟨?_, ?_, ?_, ?_, ?_⟩
    · intro i j' hg
      rw [hlen]
      rcases jsMapGet_jsMapSet_cases hg with ⟨_, hjj⟩ | ⟨_, holdg⟩
      · subst hjj
        exact hj
      · exact h.byId_lt i j' holdg
    · intro i j' hg
      rcases jsMapGet_jsMapSet_cases hg with ⟨hi, hjj⟩ | ⟨hi, holdg⟩
      · subst hjj
        rw [hself]
        show id = some i
        have hix : i = x := by rw [hi, hxd]
        rw [hx, hix]
      · have hje : j' ≠ j := by
          intro hc
          subst hc
          have := h.byId_sound i j' holdg
          have htr : strTruthy (s.entryAt j').id = true := by
            rw [this]
            simp [strTruthy, h.ids_truthy j' (h.byId_lt i j' holdg) i this]
          exact absurd htr (by simpa using hold)
        rw [set_entryAt_other s j j' _ _ _ hje]
        exact h.byId_sound i j' holdg
    · intro j' hj' i hid
      rw [hlen] at hj'
      by_cases hje : j' = j
      · subst hje
        rw [hself] at hid
        have hxi : i = x := by
          rw [hx] at hid
          injection hid with hid
          exact hid.symm
        subst hxi
        rw [hxd, jsMapGet_jsMapSet_self]
      · rw [set_entryAt_other s j j' _ _ _ hje] at hid
        have holdc := h.id_complete j' hj' i hid
        have hix : i ≠ x := by
          intro hc
          subst hc
          rw [hnone] at holdc
          exact Option.noConfusion holdc
        rw [hxd, jsMapGet_jsMapSet_ne _ _ hix]
        exact holdc
    · intro j' hj' i hid
      rw [hlen] at hj'
      by_cases hje : j' = j
      · subst hje
        rw [hself] at hid
        rw [hx] at hid
        injection hid with hid
        rw [← hid]
        exact hxe
      · rw [set_entryAt_other s j j' _ _ _ hje] at hid
        exact h.ids_truthy j' hj' i hid
    · intro k j' hg
      rw [hlen]
      exact h.byKey_lt k j' hg
  · rw [heq]
    exact h

theorem lookupByKey_some_get {s : MetricSet} {key : String}
    {id : Option String} {j : Nat} (h : s.lookupByKey key id = some j) :
    jsMapGet s.metricByKey key = some j := by
  unfold MetricSet.lookupByKey at h
  cases hg : jsMapGet s.metricByKey key with
  | none =>
      rw [hg] at h
      exact Option.noConfusion h
  | some j' =>
      rw [hg] at h
      simp only [] at h
      by_cases hc : strTruthy (s.entryAt j').id ∧ strTruthy id
      · rw [if_pos hc] at h
        exact Option.noConfusion h
      · rw [if_neg hc] at h
        injection h with h
        rw [h]

theorem resolveEntry_inv {s : MetricSet} {m : Metric}
    {tag id : Option String} {s' : MetricSet} (hinv : SetInv s)
    (h : s.resolveEntry m tag id = .ok s') : SetInv s' := by
  rcases resolveEntry_ok_cases h with ⟨j, hcase, heq⟩ | ⟨hfree, _, heq⟩
  · have hj : j < s.metrics.length := by
      rcases hcase with ⟨_, hg, _⟩ | ⟨_, hlk⟩
      · exact hinv.byId_lt _ j hg
      · exact hinv.byKey_lt _ j (lookupByKey_some_get hlk)
    have hfree : strTruthy id = true → strTruthy (s.entryAt j).id = false →
        jsMapGet s.metricById (id.getD "") = none := by
      intro ht hold
      rcases hcase with ⟨_, hg, _⟩ | ⟨hdis, _⟩
      · have := hinv.byId_sound _ j hg
        have htr : strTruthy (s.entryAt j).id = true := by
          rw [this]
          simp [strTruthy, hinv.ids_truthy j hj _ this]
        rw [htr] at hold
        exact Bool.noConfusion hold
      · rcases hdis with hf | hn
        · rw [ht] at hf
          exact Bool.noConfusion hf
        · exact hn
    rw [heq]
    exact bindTag_inv j tag (bindId_inv hj hfree hinv)
  · rw [heq]
    have hinv₁ := pushEntry_inv m hinv
    have hj₁ : s.metrics.length < (s.pushEntry m).metrics.length := by
      rw [pushEntry_length]
      exact Nat.lt_succ_self _
    have hfree₁ : strTruthy id = true →
        strTruthy ((s.pushEntry m).entryAt s.metrics.length).id = false →
        jsMapGet (s.pushEntry m).metricById (id.getD "") = none := by
      intro ht _
      rw [pushEntry_byId]
      rcases hfree with hf | hn
      · rw [ht] at hf
        exact Bool.noConfusion hf
      · exact hn
    exact bindTag_inv _ tag (bindId_inv hj₁ hfree₁ hinv₁)

mutual
theorem addOne_inv (m : Metric) : ∀ (s : MetricSet) (tag id : Option String)
    (s' : MetricSet), SetInv s → MetricSet.addOne s m tag id = .ok s' →
    SetInv s' := by
  intro s tag id s' hinv h
  rw [addOne_eq] at h
  cases hres : s.resolveEntry m tag id with
  | error e =>
      rw [hres] at h
      exact Except.noConfusion h
  | ok s₁ =>
      rw [hres] at h
      simp only [] at h
      cases m with
      | stat c rp =>
          simp only [] at h
          injection h with h
          rw [← h]
          exact resolveEntry_inv hinv hres
      | mathExpr e u rp =>
          simp only [] at h
          exact addChildren_inv u s₁ s' (resolveEntry_inv hinv hres) h

theorem addChildren_inv (u : UsingMetrics) : ∀ (s s' : MetricSet),
    SetInv s → MetricSet.addChildren s u = .ok s' → SetInv s' := by
  intro s s' hinv h
  cases u with
  | nil =>
      unfold MetricSet.addChildren at h
      injection h with h
      rw [← h]
      exact hinv
  | cons subId subMetric rest =>
      unfold MetricSet.addChildren at h
      cases hone : MetricSet.addOne s subMetric none (some subId) with
      | error e =>
          rw [hone] at h
          exact Except.noConfusion h
      | ok s₁ =>
          rw [hone] at h
          simp only [bind, Except.bind] at h
          exact addChildren_inv rest s₁ s'
            (addOne_inv subMetric s none (some subId) s₁ hinv hone) h
end

theorem addTopLevel_inv : ∀ (ms : List Metric) (s : MetricSet) (t : String)
    (s' : MetricSet), SetInv s → MetricSet.addTopLevel s t ms = .ok s' →
    SetInv s' := by
  intro ms
  induction ms with
  | nil =>
      intro s t s' hinv h
      unfold MetricSet.addTopLevel at h
      injection h with h
      rw [← h]
      exact hinv
  | cons m rest ih =>
      intro s t s' hinv h
      unfold MetricSet.addTopLevel at h
      show SetInv s'
      rw [show List.foldlM (fun s m => MetricSet.addOne s m (some t) none) s
          (m :: rest)
        = (MetricSet.addOne s m (some t) none).bind
            (fun s₁ => List.foldlM
              (fun s m => MetricSet.addOne s m (some t) none) s₁ rest)
        from rfl] at h
      cases hone : MetricSet.addOne s m (some t) none with
      | error e =>
          rw [hone] at h
          exact Except.noConfusion h
      | ok s₁ =>
          rw [hone] at h
          simp only [Except.bind] at h
          exact ih s₁ t s' (addOne_inv m s (some t) none s₁ hinv hone) h

theorem foldCalls_inv : ∀ (calls : List (String × List Metric))
    (s₀ s : MetricSet), SetInv s₀ →
    calls.foldlM (fun s c => MetricSet.addTopLevel s c.1 c.2) s₀ = .ok s →
    SetInv s := by
  intro calls
  induction calls with
  | nil =>
      intro s₀ s hinv h
      injection h with h
      rw [← h]
      exact hinv
  | cons c rest ih =>
      intro s₀ s hinv h
      rw [show List.foldlM (fun s c => MetricSet.addTopLevel s c.1 c.2) s₀
          (c :: rest)
        = (MetricSet.addTopLevel s₀ c.1 c.2).bind
            (fun s₁ => List.foldlM
              (fun s c => MetricSet.addTopLevel s c.1 c.2) s₁ rest)
        from rfl] at h
      cases htop : MetricSet.addTopLevel s₀ c.1 c.2 with
      | error e =>
          rw [htop] at h
          exact Except.noConfusion h
      | ok s₁ =>
          rw [htop] at h
          simp only [Except.bind] at h
          exact ih s₁ s (addTopLevel_inv c.2 s₀ c.1 s₁ hinv htop) h

/-- C10: after any sequence of `addTopLevel` calls that completes without
throwing, the identifiers carried by entries are pairwise distinct, and
the identifier index maps each bound identifier to the unique in-range
entry carrying it. -/
theorem claim_C10 (calls : List (String × List Metric)) (s : MetricSet)
    (h : calls.foldlM (fun s c => MetricSet.addTopLevel s c.1 c.2)
      MetricSet.empty = .ok s) :
    (∀ j₁ j₂ i, j₁ < s.metrics.length → j₂ < s.metrics.length →
      (s.entryAt j₁).id = some i → (s.entryAt j₂).id = some i → j₁ = j₂)
    ∧ (∀ i j, jsMapGet s.metricById i = some j →
      j < s.metrics.length ∧ (s.entryAt j).id = some i) := by
  have hinv := foldCalls_inv calls MetricSet.empty s setInv_empty h
  constructor
  · intro j₁ j₂ i hj₁ hj₂ h₁ h₂
    have hb₁ := hinv.id_complete j₁ hj₁ i h₁
    have hb₂ := hinv.id_complete j₂ hj₂ i h₂
    exact Option.some.inj (hb₁.symm.trans hb₂)
  · intro i j hg
    exact ⟨hinv.byId_lt i j hg, hinv.byId_sound i j hg⟩

theorem claim_C10_witness :
    ([(("left" : String), [exprM1A])].foldlM
        (fun s c => MetricSet.addTopLevel s c.1 c.2) MetricSet.empty
      = .ok ⟨[⟨exprM1A, some "left", none⟩, ⟨statA, none, some "m1"⟩],
             [("m1", 1)],
             [(metricKey exprM1A, 0), (metricKey statA, 1)]⟩)
    ∧ ((∀ j₁ j₂ i,
        j₁ < (⟨[⟨exprM1A, some "left", none⟩, ⟨statA, none, some "m1"⟩],
             [("m1", 1)],
             [(metricKey exprM1A, 0), (metricKey statA, 1)]⟩
            : MetricSet).metrics.length →
        j₂ < (⟨[⟨exprM1A, some "left", none⟩, ⟨statA, none, some "m1"⟩],
             [("m1", 1)],
             [(metricKey exprM1A, 0), (metricKey statA, 1)]⟩
            : MetricSet).metrics.length →
        ((⟨[⟨exprM1A, some "left", none⟩, ⟨statA, none, some "m1"⟩],
             [("m1", 1)],
             [(metricKey exprM1A, 0), (metricKey statA, 1)]⟩
            : MetricSet).entryAt j₁).id = some i →
        ((⟨[⟨exprM1A, some "left", none⟩, ⟨statA, none, some "m1"⟩],
             [("m1", 1)],
             [(metricKey exprM1A, 0), (metricKey statA, 1)]⟩
            : MetricSet).entryAt j₂).id = some i → j₁ = j₂)
      ∧ (∀ i j,
        jsMapGet (⟨[⟨exprM1A, some "left", none⟩, ⟨statA, none, some "m1"⟩],
             [("m1", 1)],
             [(metricKey exprM1A, 0), (metricKey statA, 1)]⟩
            : MetricSet).metricById i = some j →
        j < (⟨[⟨exprM1A, some "left", none⟩, ⟨statA, none, some "m1"⟩],
             [("m1", 1)],
             [(metricKey exprM1A, 0), (metricKey statA, 1)]⟩
            : MetricSet).metrics.length ∧
        ((⟨[⟨exprM1A, some "left", none⟩, ⟨statA, none, some "m1"⟩],
             [("m1", 1)],
             [(metricKey exprM1A, 0), (metricKey statA, 1)]⟩
            : MetricSet).entryAt j).id = some i)) := by
  have hfold : [(("left" : String), [exprM1A])].foldlM
      (fun s c => MetricSet.addTopLevel s c.1 c.2) MetricSet.empty
    = .ok ⟨[⟨exprM1A, some "left", none⟩, ⟨statA, none, some "m1"⟩],
           [("m1", 1)],
           [(metricKey exprM1A, 0), (metricKey statA, 1)]⟩ := by
    simp [MetricSet.addTopLevel, MetricSet.addOne, MetricSet.addChildren,
      MetricSet.resolveEntry, MetricSet.lookupById, MetricSet.lookupByKey,
      MetricSet.pushEntry, MetricSet.bindId, MetricSet.bindTag,
      MetricSet.empty, MetricSet.entryAt, metricKey, metricKeyPairs,
      statParts, periodSeg, joinParts, jsMapGet, jsMapSet, strTruthy,
      exprM1A, statA, statAConf, List.foldlM, bind, Except.bind, pure,
      Except.pure]
  exact ⟨hfold, claim_C10 _ _ hfold⟩

/-! ### C2: characterising validateNoIdConflicts -/

theorem validateFold_cons (seen : List (String × Metric)) (id : String)
    (m : Metric) (rest : UsingMetrics) :
    validateFold seen (.cons id m rest)
      = Except.bind
          (match jsMapGet seen id with
           | some existing =>
               if metricKey existing ≠ metricKey m then
                 Except.error (conflictMessage id m existing)
               else
                 Except.ok (jsMapSet seen id m)
           | none => Except.ok (jsMapSet seen id m))
          (fun seen₁ => Except.bind (validateVisit seen₁ m)
            (fun seen₂ => validateFold seen₂ rest)) := by
  conv_lhs => rw [validateFold]
  cases jsMapGet seen id with
  | none => rfl
  | some existing =>
      simp only []
      by_cases hk : metricKey existing ≠ metricKey m
      · rw [if_pos hk, if_pos hk]
        rfl
      · rw [if_neg hk, if_neg hk]
        rfl

theorem validStep_nil (seen : List (String × Metric)) :
    ValidStep seen seen [] := by
  refine ⟨?_, ?_, ?_, ?_, ?_⟩
  · intro i a b ha _
    exact absurd ha (List.not_mem_nil _)
  · intro i a b _ hb
    exact absurd hb (List.not_mem_nil _)
  · intro i a h
    exact Or.inl h
  · intro i b hb
    exact absurd hb (List.not_mem_nil _)
  · intro i a h
    exact ⟨a, h, rfl⟩

theorem validStep_cons {seen seen₂ seen' : List (String × Metric)}
    {id : String} {m : Metric} {bm br : List (String × Metric)}
    (hgs : ∀ a, jsMapGet seen id = some a → metricKey a = metricKey m)
    (hm : ValidStep (jsMapSet seen id m) seen₂ bm)
    (hr : ValidStep seen₂ seen' br) :
    ValidStep seen seen' ((id, m) :: (bm ++ br)) := by
  obtain ⟨m1, m2, m3, m4, m5⟩ := hm
  obtain ⟨r1, r2, r3, r4, r5⟩ := hr
  have hmem : ∀ (i : String) (b : Metric), (i, b) ∈ (id, m) :: (bm ++ br) ↔
      (i = id ∧ b = m) ∨ (i, b) ∈ bm ∨ (i, b) ∈ br := by
    intro i b
    simp [List.mem_cons, List.mem_append, Prod.mk.injEq]
  have kmb : ∀ b, (id, b) ∈ bm → metricKey m = metricKey b := by
    intro b hb
    exact m2 id m b (jsMapGet_jsMapSet_self seen id m) hb
  have sb : ∀ i a b, jsMapGet seen i = some a → (i, b) ∈ bm →
      metricKey a = metricKey b := by
    intro i a b ha hb
    by_cases hi : i = id
    · subst hi
      exact (hgs a ha).trans (kmb b hb)
    · exact m2 i a b (by rw [jsMapGet_jsMapSet_ne seen m hi]; exact ha) hb
  have haid : ∃ aid, jsMapGet seen₂ id = some aid
      ∧ metricKey aid = metricKey m :=
    m5 id m (jsMapGet_jsMapSet_self seen id m)
  have s2 : ∀ i a, jsMapGet seen i = some a →
      ∃ a₂, jsMapGet seen₂ i = some a₂ ∧ metricKey a₂ = metricKey a := by
    intro i a ha
    by_cases hi : i = id
    · subst hi
      obtain ⟨aid, hget, hkey⟩ := haid
      exact ⟨aid, hget, hkey.trans (hgs a ha).symm⟩
    · exact m5 i a (by rw [jsMapGet_jsMapSet_ne seen m hi]; exact ha)
  have sbr : ∀ i a b, jsMapGet seen i = some a → (i, b) ∈ br →
      metricKey a = metricKey b := by
    intro i a b ha hb
    obtain ⟨a₂, hget, hkey⟩ := s2 i a ha
    exact hkey.symm.trans (r2 i a₂ b hget hb)
  have bmbr : ∀ i b c, (i, b) ∈ bm → (i, c) ∈ br →
      metricKey b = metricKey c := by
    intro i b c hb hc
    obtain ⟨a₂, hget, hkey⟩ := m4 i b hb
    exact hkey.symm.trans (r2 i a₂ c hget hc)
  have kmr : ∀ c, (id, c) ∈ br → metricKey m = metricKey c := by
    intro c hc
    obtain ⟨aid, hget, hkey⟩ := haid
    exact hkey.symm.trans (r2 id aid c hget hc)
  refine ⟨?_, ?_, ?_, ?_, ?_⟩
  · intro i a b ha hb
    rcases (hmem i a).mp ha with ⟨hia, ham⟩ | ha' | ha' <;>
      rcases (hmem i b).mp hb with ⟨hib, hbm⟩ | hb' | hb'
    · rw [ham, hbm]
    · subst ham
      rw [hia] at hb'
      exact kmb b hb'
    · subst ham
      rw [hia] at hb'
      exact kmr b hb'
    · subst hbm
      rw [hib] at ha'
      exact (kmb a ha').symm
    · exact m1 i a b ha' hb'
    · exact bmbr i a b ha' hb'
    · subst hbm
      rw [hib] at ha'
      exact (kmr a ha').symm
    · exact (bmbr i b a hb' ha').symm
    · exact r1 i a b ha' hb'
  · intro i a b ha hb
    rcases (hmem i b).mp hb with ⟨hib, hbm⟩ | hb' | hb'
    · subst hbm
      rw [hib] at ha
      exact hgs a ha
    · exact sb i a b ha hb'
    · exact sbr i a b ha hb'
  · intro i a h
    rcases r3 i a h with h₂ | h₂
    · rcases m3 i a h₂ with h₁ | h₁
      · by_cases hi : i = id
        · rw [hi] at h₁ ⊢
          rw [jsMapGet_jsMapSet_self] at h₁
          injection h₁ with h₁
          exact Or.inr ((hmem id a).mpr (Or.inl ⟨rfl, h₁.symm⟩))
        · rw [jsMapGet_jsMapSet_ne seen m hi] at h₁
          exact Or.inl h₁
      · exact Or.inr ((hmem i a).mpr (Or.inr (Or.inl h₁)))
    · exact Or.inr ((hmem i a).mpr (Or.inr (Or.inr h₂)))
  · intro i b hb
    rcases (hmem i b).mp hb with ⟨hib, hbm⟩ | hb' | hb'
    · rw [hib, hbm]
      obtain ⟨aid, hget, hkey⟩ := haid
      obtain ⟨a', hget', hkey'⟩ := r5 id aid hget
      exact ⟨a', hget', hkey'.trans hkey⟩
    · obtain ⟨a₂, hget, hkey⟩ := m4 i b hb'
      obtain ⟨a', hget', hkey'⟩ := r5 i a₂ hget
      exact ⟨a', hget', hkey'.trans hkey⟩
    · exact r4 i b hb'
  · intro i a ha
    obtain ⟨a₂, hget, hkey⟩ := s2 i a ha
    obtain ⟨a', hget', hkey'⟩ := r5 i a₂ hget
    exact ⟨a', hget', hkey'.trans hkey⟩

mutual
theorem validateVisit_ok (m : Metric) : ∀ (seen seen' : List (String × Metric)),
    validateVisit seen m = .ok seen' → ValidStep seen seen' m.bindings := by
  intro seen seen' h
  cases m with
  | stat c rp =>
      unfold validateVisit at h
      injection h with h
      rw [← h]
      show ValidStep seen seen []
      exact validStep_nil seen
  | mathExpr e u rp =>
      unfold validateVisit at h
      show ValidStep seen seen' (UsingMetrics.bindings u)
      exact validateFold_ok u seen seen' h

theorem validateFold_ok (u : UsingMetrics) :
    ∀ (seen seen' : List (String × Metric)),
    validateFold seen u = .ok seen' → ValidStep seen seen' u.bindings := by
  intro seen seen' h
  cases u with
  | nil =>
      unfold validateFold at h
      injection h with h
      rw [← h]
      show ValidStep seen seen []
      exact validStep_nil seen
  | cons id m rest =>
      rw [validateFold_cons] at h
      show ValidStep seen seen' ((id, m) :: (m.bindings ++ rest.bindings))
      cases hg : jsMapGet seen id with
      | none =>
          rw [hg] at h
          simp only [Except.bind] at h
          cases hv : validateVisit (jsMapSet seen id m) m with
          | error e =>
              rw [hv] at h
              exact Except.noConfusion h
          | ok seen₂ =>
              rw [hv] at h
              simp only [] at h
              exact validStep_cons
                (fun a ha => absurd (hg ▸ ha) (Option.noConfusion))
                (validateVisit_ok m (jsMapSet seen id m) seen₂ hv)
                (validateFold_ok rest seen₂ seen' h)
      | some ex =>
          rw [hg] at h
          simp only [] at h
          by_cases hk : metricKey ex ≠ metricKey m
          · rw [if_pos hk] at h
            simp only [Except.bind] at h
            exact Except.noConfusion h
          · rw [if_neg hk] at h
            simp only [Except.bind] at h
            cases hv : validateVisit (jsMapSet seen id m) m with
            | error e =>
                rw [hv] at h
                exact Except.noConfusion h
            | ok seen₂ =>
                rw [hv] at h
                simp only [] at h
                refine validStep_cons ?_
                  (validateVisit_ok m (jsMapSet seen id m) seen₂ hv)
                  (validateFold_ok rest seen₂ seen' h)
                intro a ha
                rw [hg] at ha
                injection ha with ha
                rw [← ha]
                exact not_not.mp hk
end

mutual
theorem validateVisit_error (m : Metric) :
    ∀ (seen : List (String × Metric)) (msg : String),
    validateVisit seen m = .error msg →
    ∃ i a e, msg = conflictMessage i a e ∧ (i, a) ∈ m.bindings
      ∧ metricKey e ≠ metricKey a
      ∧ (jsMapGet seen i = some e ∨ (i, e) ∈ m.bindings) := by
  intro seen msg h
  cases m with
  | stat c rp =>
      unfold validateVisit at h
      exact Except.noConfusion h
  | mathExpr e u rp =>
      unfold validateVisit at h
      show ∃ i a ex, msg = conflictMessage i a ex
        ∧ (i, a) ∈ UsingMetrics.bindings u
        ∧ metricKey ex ≠ metricKey a
        ∧ (jsMapGet seen i = some ex ∨ (i, ex) ∈ UsingMetrics.bindings u)
      exact validateFold_error u seen msg h

theorem validateFold_error (u : UsingMetrics) :
    ∀ (seen : List (String × Metric)) (msg : String),
    validateFold seen u = .error msg →
    ∃ i a e, msg = conflictMessage i a e ∧ (i, a) ∈ u.bindings
      ∧ metricKey e ≠ metricKey a
      ∧ (jsMapGet seen i = some e ∨ (i, e) ∈ u.bindings) := by
  intro seen msg h
  cases u with
  | nil =>
      unfold validateFold at h
      exact Except.noConfusion h
  | cons id m rest =>
      rw [validateFold_cons] at h
      have hmem : ∀ (i : String) (b : Metric),
          (i, b) ∈ UsingMetrics.bindings (.cons id m rest) ↔
          (i = id ∧ b = m) ∨ (i, b) ∈ m.bindings
            ∨ (i, b) ∈ rest.bindings := by
        intro i b
        show (i, b) ∈ (id, m) :: (m.bindings ++ rest.bindings) ↔ _
        simp [List.mem_cons, List.mem_append, Prod.mk.injEq]
      have hcont : ∀ hg2 : ∀ a, jsMapGet seen id = some a →
            metricKey a = metricKey m,
          Except.bind (validateVisit (jsMapSet seen id m) m)
            (fun seen₂ => validateFold seen₂ rest) = .error msg →
          ∃ i a e, msg = conflictMessage i a e
            ∧ (i, a) ∈ UsingMetrics.bindings (.cons id m rest)
            ∧ metricKey e ≠ metricKey a
            ∧ (jsMapGet seen i = some e
              ∨ (i, e) ∈ UsingMetrics.bindings (.cons id m rest)) := by
        intro hg2 hb
        cases hv : validateVisit (jsMapSet seen id m) m with
        | error e =>
            rw [hv] at hb
            simp only [Except.bind] at hb
            injection hb with hb
            obtain ⟨i, a, ex, hmsg, ha, hne, hd⟩ :=
              validateVisit_error m (jsMapSet seen id m) e hv
            refine ⟨i, a, ex, by rw [← hb, hmsg], (hmem i a).mpr
              (Or.inr (Or.inl ha)), hne, ?_⟩
            rcases hd with hdg | hdm
            · by_cases hi : i = id
              · rw [hi] at hdg
                rw [jsMapGet_jsMapSet_self] at hdg
                injection hdg with hdg
                exact Or.inr ((hmem i ex).mpr (Or.inl ⟨hi, hdg.symm⟩))
              · rw [jsMapGet_jsMapSet_ne seen m hi] at hdg
                exact Or.inl hdg
            · exact Or.inr ((hmem i ex).mpr (Or.inr (Or.inl hdm)))
        | ok seen₂ =>
            rw [hv] at hb
            simp only [Except.bind] at hb
            obtain ⟨i, a, ex, hmsg, ha, hne, hd⟩ :=
              validateFold_error rest seen₂ msg hb
            refine ⟨i, a, ex, hmsg, (hmem i a).mpr
              (Or.inr (Or.inr ha)), hne, ?_⟩
            rcases hd with hdg | hdm
            · obtain ⟨_, _, hprov, _, _⟩ :=
                validateVisit_ok m (jsMapSet seen id m) seen₂ hv
              rcases hprov i ex hdg with h₁ | h₁
              · by_cases hi : i = id
                · rw [hi] at h₁
                  rw [jsMapGet_jsMapSet_self] at h₁
                  injection h₁ with h₁
                  exact Or.inr ((hmem i ex).mpr (Or.inl ⟨hi, h₁.symm⟩))
                · rw [jsMapGet_jsMapSet_ne seen m hi] at h₁
                  exact Or.inl h₁
              · exact Or.inr ((hmem i ex).mpr (Or.inr (Or.inl h₁)))
            · exact Or.inr ((hmem i ex).mpr (Or.inr (Or.inr hdm)))
      cases hg : jsMapGet seen id with
      | none =>
          rw [hg] at h
          simp only [Except.bind] at h
          exact hcont (fun a ha => absurd (hg ▸ ha) (Option.noConfusion)) h
      | some ex =>
          rw [hg] at h
          simp only [] at h
          by_cases hk : metricKey ex ≠ metricKey m
          · rw [if_pos hk] at h
            simp only [Except.bind] at h
            injection h with h
            exact ⟨id, m, ex, h.symm, (hmem id m).mpr (Or.inl ⟨rfl, rfl⟩),
              hk, Or.inl hg⟩
          · rw [if_neg hk] at h
            simp only [Except.bind] at h
            refine hcont ?_ h
            intro a ha
            rw [hg] at ha
            injection ha with ha
            rw [← ha]
            exact not_not.mp hk
end

/-- C2: `validateNoIdConflicts` returns normally iff no identifier is bound
anywhere in the expression tree — at any depth, identifiers scoped globally
across the whole tree — to two metrics whose structural keys differ; and
whenever it throws, the error is the conflict message naming an offending
identifier together with two metrics bound to it in the tree whose
structural keys differ. -/
theorem claim_C2 (E : Metric) :
    (validateNoIdConflicts E = .ok () ↔ E.noIdConflict)
    ∧ (∀ msg, validateNoIdConflicts E = .error msg →
      ∃ i a b, msg = conflictMessage i a b
        ∧ (i, a) ∈ E.bindings ∧ (i, b) ∈ E.bindings
        ∧ metricKey b ≠ metricKey a) := by
  constructor
  · constructor
    · intro h
      unfold validateNoIdConflicts at h
      cases hv : validateVisit [] E with
      | error e =>
          rw [hv] at h
          simp only [bind, Except.bind] at h
          exact Except.noConfusion h
      | ok seen' =>
          obtain ⟨h1, _, _, _, _⟩ := validateVisit_ok E [] seen' hv
          exact h1
    · intro hno
      cases hv : validateVisit [] E with
      | error e =>
          obtain ⟨i, a, ex, _, ha, hne, hd⟩ :=
            validateVisit_error E [] e hv
          rcases hd with hdg | hdm
          · rw [jsMapGet_nil] at hdg
            exact absurd hdg (Option.noConfusion)
          · exact absurd (hno i ex a hdm ha) hne
      | ok seen' =>
          unfold validateNoIdConflicts
          rw [hv]
          rfl
  · intro msg h
    unfold validateNoIdConflicts at h
    cases hv : validateVisit [] E with
    | ok seen' =>
        rw [hv] at h
        simp only [bind, Except.bind] at h
        exact Except.noConfusion h
    | error e =>
        rw [hv] at h
        simp only [bind, Except.bind] at h
        injection h with h
        obtain ⟨i, a, ex, hmsg, ha, hne, hd⟩ :=
          validateVisit_error E [] e hv
        rcases hd with hdg | hdm
        · rw [jsMapGet_nil] at hdg
          exact absurd hdg (Option.noConfusion)
        · exact ⟨i, a, ex, by rw [← h, hmsg], ha, hdm, hne⟩

/-- Witness for C2: an expression binding "x" to `statA` at the top level
and to `statB` one level deeper throws the conflict message naming "x",
`statB` and `statA`. -/
theorem claim_C2_witness :
    validateNoIdConflicts exprConflict
      = .error (conflictMessage "x" statB statA)
    ∧ ∃ i a b, conflictMessage "x" statB statA = conflictMessage i a b
      ∧ (i, a) ∈ exprConflict.bindings ∧ (i, b) ∈ exprConflict.bindings
      ∧ metricKey b ≠ metricKey a := by
  have herr : validateNoIdConflicts exprConflict
      = .error (conflictMessage "x" statB statA) := by
    simp [validateNoIdConflicts, validateVisit, validateFold, exprConflict,
      conflictMessage, metricToString, statA, statB, statAConf, statBConf,
      metricKey, metricKeyPairs, statParts, periodSeg, joinParts,
      jsMapGet, jsMapSet, bind, Except.bind, pure, Except.pure]
  exact ⟨herr, (claim_C2 exprConflict).2 _ herr⟩

/-! ### C4: the structural key is content-determined, and the expression
key follows the sorted-identifier formula -/

theorem metricKey_mathExpr (e : String) (u : UsingMetrics) (rp : JsObj) :
    metricKey (.mathExpr e u rp)
      = joinParts (e :: ((metricKeyPairs u).mergeSort
          (fun a b => a.1 ≤ b.1)).flatMap (fun p => [p.1, p.2])) := rfl

mutual
theorem metricKey_strip (m : Metric) :
    metricKey m.stripRendering = metricKey m := by
  cases m with
  | stat c rp => rfl
  | mathExpr e u rp =>
      show metricKey (.mathExpr e u.stripRendering []) = _
      rw [metricKey_mathExpr, metricKey_mathExpr, keyPairs_strip u]

theorem keyPairs_strip (u : UsingMetrics) :
    metricKeyPairs u.stripRendering = metricKeyPairs u := by
  cases u with
  | nil => rfl
  | cons i m rest =>
      show (i, metricKey m.stripRendering)
          :: metricKeyPairs rest.stripRendering
        = (i, metricKey m) :: metricKeyPairs rest
      rw [metricKey_strip m, keyPairs_strip rest]
end

theorem map_fst_keyPairs (u : UsingMetrics) :
    (metricKeyPairs u).map Prod.fst = u.keys := by
  cases u with
  | nil => rfl
  | cons i m rest =>
      show i :: (metricKeyPairs rest).map Prod.fst = i :: rest.keys
      rw [map_fst_keyPairs rest]

theorem keys_map_getD (u : UsingMetrics) (h : u.keys.Nodup) :
    u.keys.map (fun i => (i, metricKey (u.getD i))) = metricKeyPairs u := by
  cases u with
  | nil => rfl
  | cons i m rest =>
      obtain ⟨hni, hnd⟩ := List.nodup_cons.mp h
      show (i, metricKey ((UsingMetrics.cons i m rest).getD i))
          :: rest.keys.map
            (fun j => (j, metricKey ((UsingMetrics.cons i m rest).getD j)))
        = (i, metricKey m) :: metricKeyPairs rest
      have hhead : (UsingMetrics.cons i m rest).getD i = m := by
        unfold UsingMetrics.getD UsingMetrics.get?
        rw [if_pos (beq_self_eq_true i)]
        rfl
      have htail : rest.keys.map
            (fun j => (j, metricKey ((UsingMetrics.cons i m rest).getD j)))
          = rest.keys.map (fun j => (j, metricKey (rest.getD j))) := by
        refine List.map_congr_left ?_
        intro j hj
        have hij : (i == j) = false :=
          beq_eq_false_iff_ne.mpr (fun hija => hni (hija ▸ hj))
        rw [UsingMetrics.getD, UsingMetrics.getD]
        conv_lhs => rw [UsingMetrics.get?]
        rw [hij]
        rfl
      rw [hhead, htail, keys_map_getD rest hnd]

theorem sorted_pairs_unique (l₁ l₂ : List (String × String))
    (hp : l₁.Perm l₂)
    (hs₁ : l₁.Pairwise (fun p q => p.1 ≤ q.1))
    (hs₂ : l₂.Pairwise (fun p q => p.1 ≤ q.1))
    (hnd : (l₁.map Prod.fst).Nodup) : l₁ = l₂ := by
  have hnd₂ : (l₂.map Prod.fst).Nodup := (hp.map Prod.fst).nodup_iff.mp hnd
  have hne₁ : l₁.Pairwise (fun p q : String × String => p.1 ≠ q.1) :=
    List.pairwise_map.mp hnd
  have hne₂ : l₂.Pairwise (fun p q : String × String => p.1 ≠ q.1) :=
    List.pairwise_map.mp hnd₂
  have hlt₁ : l₁.Pairwise (fun p q : String × String => p.1 < q.1) :=
    (hs₁.and hne₁).imp (fun h => lt_of_le_of_ne h.1 h.2)
  have hlt₂ : l₂.Pairwise (fun p q : String × String => p.1 < q.1) :=
    (hs₂.and hne₂).imp (fun h => lt_of_le_of_ne h.1 h.2)
  haveI : IsAntisymm (String × String) (fun p q => p.1 < q.1) :=
    ⟨fun a b hab hba => absurd (lt_trans hab hba) (lt_irrefl _)⟩
  exact List.eq_of_perm_of_sorted hp hlt₁ hlt₂

theorem keyPairs_mergeSort_eq (u : UsingMetrics) (h : u.keys.Nodup) :
    (metricKeyPairs u).mergeSort (fun a b => a.1 ≤ b.1)
      = (u.keys.mergeSort (fun a b => a ≤ b)).map
          (fun i => (i, metricKey (u.getD i))) := by
  have hperm : ((metricKeyPairs u).mergeSort
        (fun a b => a.1 ≤ b.1)).Perm
      ((u.keys.mergeSort (fun a b => a ≤ b)).map
        (fun i => (i, metricKey (u.getD i)))) := by
    refine (List.mergeSort_perm (metricKeyPairs u) _).trans ?_
    rw [← keys_map_getD u h]
    exact ((List.mergeSort_perm u.keys _).map _).symm
  have hsort₁ : ((metricKeyPairs u).mergeSort
        (fun a b => a.1 ≤ b.1)).Pairwise
      (fun p q : String × String => p.1 ≤ q.1) := by
    have := @List.sorted_mergeSort (String × String)
      (fun a b => a.1 ≤ b.1)
      (fun a b c hab hbc => by
        simp only [decide_eq_true_eq] at hab hbc ⊢
        exact le_trans hab hbc)
      (fun a b => by
        simp only [Bool.or_eq_true, decide_eq_true_eq]
        exact le_total a.1 b.1)
      (metricKeyPairs u)
    exact this.imp (fun h => by
      simp only [decide_eq_true_eq] at h
      exact h)
  have hsort₂ : ((u.keys.mergeSort (fun a b => a ≤ b)).map
        (fun i => (i, metricKey (u.getD i)))).Pairwise
      (fun p q : String × String => p.1 ≤ q.1) := by
    refine List.pairwise_map.mpr ?_
    have := @List.sorted_mergeSort String
      (fun a b => a ≤ b)
      (fun a b c hab hbc => by
        simp only [decide_eq_true_eq] at hab hbc ⊢
        exact le_trans hab hbc)
      (fun a b => by
        simp only [Bool.or_eq_true, decide_eq_true_eq]
        exact le_total a b)
      u.keys
    exact this.imp (fun h => by
      simp only [decide_eq_true_eq] at h
      exact h)
  have hnd : (((metricKeyPairs u).mergeSort
        (fun a b => a.1 ≤ b.1)).map Prod.fst).Nodup := by
    refine (((List.mergeSort_perm (metricKeyPairs u) _).map
      Prod.fst).nodup_iff).mpr ?_
    rw [map_fst_keyPairs]
    exact h
  exact sorted_pairs_unique _ _ hperm hsort₁ hsort₂ hnd

/-- C4: `metricKey` depends only on a metric's structural content — two
metrics equal after erasing rendering properties everywhere get equal keys
— and for a math expression over distinct identifiers the key is the
expression string joined with, for each identifier in lexicographically
sorted order, the identifier followed by the recursively computed key of
the metric it refers to. -/
theorem claim_C4 :
    (∀ m m' : Metric, m.stripRendering = m'.stripRendering →
      metricKey m = metricKey m')
    ∧ (∀ (e : String) (u : UsingMetrics) (rp : JsObj), u.keys.Nodup →
      metricKey (.mathExpr e u rp)
        = joinParts (e :: (u.keys.mergeSort (fun a b => a ≤ b)).flatMap
            (fun i => [i, metricKey (u.getD i)]))) := by
  constructor
  · intro m m' hst
    rw [← metricKey_strip m, hst, metricKey_strip m']
  · intro e u rp h
    rw [metricKey_mathExpr, keyPairs_mergeSort_eq u h, List.flatMap_map]

/-- Witness for C4: a rendering-properties change leaves `statA`'s key
unchanged, and the single-identifier expression key follows the sorted
formula. -/
theorem claim_C4_witness :
    (Metric.stripRendering (.stat statAConf [("color", JsVal.str "red")])
        = Metric.stripRendering (.stat statAConf [])
      ∧ metricKey (.stat statAConf [("color", JsVal.str "red")])
        = metricKey (.stat statAConf []))
    ∧ ((UsingMetrics.cons "m1" statA .nil).keys.Nodup
      ∧ metricKey (.mathExpr "m1 + 1" (.cons "m1" statA .nil) [])
        = joinParts ("m1 + 1" ::
            (((UsingMetrics.cons "m1" statA .nil).keys.mergeSort
              (fun a b => a ≤ b)).flatMap
              (fun i => [i, metricKey
                ((UsingMetrics.cons "m1" statA .nil).getD i)])))) := by
  refine ⟨⟨rfl, claim_C4.1 _ _ rfl⟩,
    ⟨by decide, claim_C4.2 "m1 + 1" (.cons "m1" statA .nil) [] (by decide)⟩⟩

/-! ### C1: dedup of a metric referenced through an expression -/

/-- Counterexample to C1 as stated: `exprTwoIds` binds "m1" to `statA`
itself — literally the metric registered top level — yet registering
`exprTwoIds` and then `statA` top level ends with `statA` duplicated into
two entries, because the expression also binds "x" to the same metric and
a key-matched entry already carrying a different identifier is not merged
into. -/
theorem claim_C1_counterexample :
    (UsingMetrics.cons "m1" statA (UsingMetrics.cons "x" statA .nil)).get?
      "m1" = some statA
    ∧ ∃ s, (do
        let s₁ ← MetricSet.empty.addTopLevel "left" [exprTwoIds]
        s₁.addTopLevel "right" [statA]) = .ok s
      ∧ (s.metrics.filter (fun en =>
          metricKey en.metric == metricKey statA)).length = 2 := by
  have hc : (['m', '1'] : List Char) ≤ ['x'] := by decide
  refine ⟨rfl, ⟨⟨[⟨exprTwoIds, some "left", none⟩,
      ⟨statA, none, some "m1"⟩, ⟨statA, some "right", some "x"⟩],
      [("m1", 1), ("x", 2)],
      [(metricKey exprTwoIds, 0), (metricKey statA, 2)]⟩, ?_, ?_⟩⟩
  · simp [MetricSet.addTopLevel, MetricSet.addOne, MetricSet.addChildren,
      MetricSet.resolveEntry, MetricSet.lookupById, MetricSet.lookupByKey,
      MetricSet.pushEntry, MetricSet.bindId, MetricSet.bindTag,
      MetricSet.empty, MetricSet.entryAt, metricKey, metricKeyPairs,
      statParts, periodSeg, joinParts, jsMapGet, jsMapSet, strTruthy,
      exprTwoIds, statA, statAConf, List.foldlM, List.mergeSort, List.merge,
      String.le_iff_toList_le, hc, bind, Except.bind, pure, Except.pure]
  · simp [List.filter, metricKey, metricKeyPairs, statParts, periodSeg,
      joinParts, exprTwoIds, statA, statAConf, List.mergeSort, List.merge,
      String.le_iff_toList_le, hc]

theorem metricKey_expr_single (e i : String) (m : Metric) (rp : JsObj) :
    metricKey (.mathExpr e (.cons i m .nil) rp)
      = e ++ "|" ++ (i ++ "|" ++ metricKey m) := by
  rw [metricKey_mathExpr]
  show joinParts (e :: (List.mergeSort [(i, metricKey m)]
      (fun a b => a.1 ≤ b.1)).flatMap (fun p => [p.1, p.2])) = _
  rw [List.mergeSort_singleton]
  rfl

theorem expr_single_key_ne (e i : String) (m : Metric) (rp : JsObj)
    (k : String) (hm : metricKey m = k) (hi : i.length = 2) :
    metricKey (.mathExpr e (.cons i m .nil) rp) ≠ k := by
  rw [metricKey_expr_single, hm]
  intro hcontra
  have hlen := congrArg String.length hcontra
  have hbar : ("|" : String).length = 1 := rfl
  simp only [String.length_append, hbar, hi] at hlen
  omega

theorem c1_expr_first (e : String) (rpE : JsObj) (c' : MetricStatConfig)
    (rp' : JsObj) (t₁ : String) (ht₁ : t₁ ≠ "")
    (hkey : (metricKey (Metric.mathExpr e
        (.cons "m1" (.stat c' rp') .nil) rpE)
      == metricKey (.stat c' rp')) = false) :
    MetricSet.empty.addTopLevel t₁
      [Metric.mathExpr e (.cons "m1" (.stat c' rp') .nil) rpE]
    = .ok ⟨[⟨.mathExpr e (.cons "m1" (.stat c' rp') .nil) rpE,
              some t₁, none⟩,
            ⟨.stat c' rp', none, some "m1"⟩],
           [("m1", 1)],
           [(metricKey (Metric.mathExpr e
               (.cons "m1" (.stat c' rp') .nil) rpE), 0),
            (metricKey (Metric.stat c' rp'), 1)]⟩ := by
  have ht₁' : (t₁ == "") = false := beq_eq_false_iff_ne.mpr ht₁
  simp [MetricSet.addTopLevel, List.foldlM, MetricSet.addOne,
    MetricSet.addChildren, MetricSet.resolveEntry, MetricSet.lookupById,
    MetricSet.lookupByKey, MetricSet.pushEntry, MetricSet.bindId,
    MetricSet.bindTag, MetricSet.empty, MetricSet.entryAt, strTruthy,
    jsMapGet, jsMapSet, List.find?, hkey, ht₁', bind, Except.bind, pure,
    Except.pure]

theorem c1_stat_after_expr (e : String) (rpE : JsObj)
    (c c' : MetricStatConfig) (rp rp' : JsObj) (t₁ t₂ : String)
    (ht₂ : t₂ ≠ "")
    (hkt : (metricKey (Metric.stat c' rp')
      == metricKey (Metric.stat c rp)) = true)
    (hne : (metricKey (Metric.mathExpr e
        (.cons "m1" (.stat c' rp') .nil) rpE)
      == metricKey (.stat c rp)) = false) :
    MetricSet.addTopLevel
      ⟨[⟨.mathExpr e (.cons "m1" (.stat c' rp') .nil) rpE,
              some t₁, none⟩,
            ⟨.stat c' rp', none, some "m1"⟩],
           [("m1", 1)],
           [(metricKey (Metric.mathExpr e
               (.cons "m1" (.stat c' rp') .nil) rpE), 0),
            (metricKey (Metric.stat c' rp'), 1)]⟩ t₂ [Metric.stat c rp]
    = .ok ⟨[⟨.mathExpr e (.cons "m1" (.stat c' rp') .nil) rpE,
              some t₁, none⟩,
            ⟨.stat c' rp', some t₂, some "m1"⟩],
           [("m1", 1)],
           [(metricKey (Metric.mathExpr e
               (.cons "m1" (.stat c' rp') .nil) rpE), 0),
            (metricKey (Metric.stat c' rp'), 1)]⟩ := by
  have ht₂' : (t₂ == "") = false := beq_eq_false_iff_ne.mpr ht₂
  simp [MetricSet.addTopLevel, List.foldlM, MetricSet.addOne,
    MetricSet.resolveEntry, MetricSet.lookupById, MetricSet.lookupByKey,
    MetricSet.pushEntry, MetricSet.bindId, MetricSet.bindTag,
    MetricSet.entryAt, strTruthy, jsMapGet, jsMapSet, List.find?, hkt, hne,
    ht₂', bind, Except.bind, pure, Except.pure]

theorem c1_expr_after_stat (e : String) (rpE : JsObj)
    (c c' : MetricStatConfig) (rp rp' : JsObj) (t₁ t₂ : String)
    (ht₂ : t₂ ≠ "")
    (hkt : (metricKey (Metric.stat c rp)
      == metricKey (Metric.stat c' rp')) = true)
    (hne : (metricKey (Metric.stat c rp)
      == metricKey (Metric.mathExpr e
        (.cons "m1" (.stat c' rp') .nil) rpE)) = false) :
    MetricSet.addTopLevel
      ⟨[⟨.stat c rp, some t₁, none⟩], [],
       [(metricKey (Metric.stat c rp), 0)]⟩ t₂
      [Metric.mathExpr e (.cons "m1" (.stat c' rp') .nil) rpE]
    = .ok ⟨[⟨.stat c rp, some t₁, some "m1"⟩,
            ⟨.mathExpr e (.cons "m1" (.stat c' rp') .nil) rpE,
              some t₂, none⟩],
           [("m1", 0)],
           [(metricKey (Metric.stat c rp), 0),
            (metricKey (Metric.mathExpr e
              (.cons "m1" (.stat c' rp') .nil) rpE), 1)]⟩ := by
  have ht₂' : (t₂ == "") = false := beq_eq_false_iff_ne.mpr ht₂
  simp [MetricSet.addTopLevel, List.foldlM, MetricSet.addOne,
    MetricSet.addChildren, MetricSet.resolveEntry, MetricSet.lookupById,
    MetricSet.lookupByKey, MetricSet.pushEntry, MetricSet.bindId,
    MetricSet.bindTag, MetricSet.entryAt, strTruthy, jsMapGet, jsMapSet,
    List.find?, hkt, hne, ht₂', bind, Except.bind, pure, Except.pure]

/-- C1 (amended): for a stat ref M and a math expression E whose single
`usingMetrics` binding gives "m1" a stat ref with the same structural key
as M, registering E and M top level under truthy tags, in either order,
completes without throwing and yields exactly one entry for M's structural
key; that entry has a truthy tag and identifier "m1".  The unrestricted
claim fails: an expression that additionally binds a second identifier to
the same metric duplicates it into two entries. -/
theorem claim_C1 (c c' : MetricStatConfig) (rp rp' rpE : JsObj)
    (e t₁ t₂ : String) (ht₁ : t₁ ≠ "") (ht₂ : t₂ ≠ "")
    (hk : metricKey (.stat c' rp') = metricKey (.stat c rp)) :
    (∃ s, (do
        let s₁ ← MetricSet.empty.addTopLevel t₁
          [Metric.mathExpr e (.cons "m1" (.stat c' rp') .nil) rpE]
        s₁.addTopLevel t₂ [Metric.stat c rp]) = .ok s
      ∧ (s.metrics.filter (fun en =>
          metricKey en.metric == metricKey (.stat c rp))).length = 1
      ∧ ∃ j, j < s.metrics.length
        ∧ metricKey (s.entryAt j).metric = metricKey (.stat c rp)
        ∧ strTruthy (s.entryAt j).tag = true
        ∧ (s.entryAt j).id = some "m1")
    ∧ (∃ s, (do
        let s₁ ← MetricSet.empty.addTopLevel t₁ [Metric.stat c rp]
        s₁.addTopLevel t₂
          [Metric.mathExpr e (.cons "m1" (.stat c' rp') .nil) rpE])
        = .ok s
      ∧ (s.metrics.filter (fun en =>
          metricKey en.metric == metricKey (.stat c rp))).length = 1
      ∧ ∃ j, j < s.metrics.length
        ∧ metricKey (s.entryAt j).metric = metricKey (.stat c rp)
        ∧ strTruthy (s.entryAt j).tag = true
        ∧ (s.entryAt j).id = some "m1") := by
  have ht₂' : (t₂ == "") = false := beq_eq_false_iff_ne.mpr ht₂
  have ht₁' : (t₁ == "") = false := beq_eq_false_iff_ne.mpr ht₁
  have hkt : (metricKey (Metric.stat c' rp')
      == metricKey (Metric.stat c rp)) = true := beq_iff_eq.mpr hk
  have hkt' : (metricKey (Metric.stat c rp)
      == metricKey (Metric.stat c' rp')) = true := beq_iff_eq.mpr hk.symm
  have hEne : metricKey (Metric.mathExpr e
      (.cons "m1" (.stat c' rp') .nil) rpE) ≠ metricKey (.stat c rp) :=
    expr_single_key_ne e "m1" (.stat c' rp') rpE _ hk rfl
  have hne : (metricKey (Metric.mathExpr e
      (.cons "m1" (.stat c' rp') .nil) rpE)
      == metricKey (.stat c rp)) = false := beq_eq_false_iff_ne.mpr hEne
  have hne' : (metricKey (Metric.stat c rp)
      == metricKey (Metric.mathExpr e
        (.cons "m1" (.stat c' rp') .nil) rpE)) = false :=
    beq_eq_false_iff_ne.mpr (Ne.symm hEne)
  have hkeyE : (metricKey (Metric.mathExpr e
      (.cons "m1" (.stat c' rp') .nil) rpE)
      == metricKey (.stat c' rp')) = false :=
    beq_eq_false_iff_ne.mpr
      (expr_single_key_ne e "m1" (.stat c' rp') rpE _ rfl rfl)
  constructor
  · refine ⟨⟨[⟨.mathExpr e (.cons "m1" (.stat c' rp') .nil) rpE,
        some t₁, none⟩, ⟨.stat c' rp', some t₂, some "m1"⟩],
        [("m1", 1)],
        [(metricKey (Metric.mathExpr e
            (.cons "m1" (.stat c' rp') .nil) rpE), 0),
         (metricKey (Metric.stat c' rp'), 1)]⟩, ?_, ?_, 1, ?_, ?_, ?_, ?_⟩
    · rw [c1_expr_first e rpE c' rp' t₁ ht₁ hkeyE]
      simp only [bind, Except.bind]
      exact c1_stat_after_expr e rpE c c' rp rp' t₁ t₂ ht₂ hkt hne
    · simp [List.filter, hne, hkt]
    · simp
    · show metricKey (Metric.stat c' rp') = metricKey (Metric.stat c rp)
      exact hk
    · show strTruthy (some t₂) = true
      simp [strTruthy, ht₂']
    · rfl
  · refine ⟨⟨[⟨.stat c rp, some t₁, some "m1"⟩,
        ⟨.mathExpr e (.cons "m1" (.stat c' rp') .nil) rpE,
          some t₂, none⟩],
        [("m1", 0)],
        [(metricKey (Metric.stat c rp), 0),
         (metricKey (Metric.mathExpr e
           (.cons "m1" (.stat c' rp') .nil) rpE), 1)]⟩,
        ?_, ?_, 0, ?_, ?_, ?_, ?_⟩
    · rw [addTopLevel_empty_stat c rp t₁ ht₁]
      simp only [bind, Except.bind]
      exact c1_expr_after_stat e rpE c c' rp rp' t₁ t₂ ht₂ hkt' hne'
    · simp [List.filter, hne]
    · simp
    · show metricKey (Metric.stat c rp) = metricKey (Metric.stat c rp)
      rfl
    · show strTruthy (some t₁) = true
      simp [strTruthy, ht₁']
    · rfl

/-- Witness for C1 (amended): instantiated at `statAConf` on both sides
with tags "left" and "right". -/
theorem claim_C1_witness :
    (∃ s, (do
        let s₁ ← MetricSet.empty.addTopLevel "left"
          [Metric.mathExpr "e" (.cons "m1" (.stat statAConf []) .nil) []]
        s₁.addTopLevel "right" [Metric.stat statAConf []]) = .ok s
      ∧ (s.metrics.filter (fun en =>
          metricKey en.metric == metricKey (.stat statAConf []))).length = 1
      ∧ ∃ j, j < s.metrics.length
        ∧ metricKey (s.entryAt j).metric = metricKey (.stat statAConf [])
        ∧ strTruthy (s.entryAt j).tag = true
        ∧ (s.entryAt j).id = some "m1")
    ∧ (∃ s, (do
        let s₁ ← MetricSet.empty.addTopLevel "left"
          [Metric.stat statAConf []]
        s₁.addTopLevel "right"
          [Metric.mathExpr "e" (.cons "m1" (.stat statAConf []) .nil) []])
        = .ok s
      ∧ (s.metrics.filter (fun en =>
          metricKey en.metric == metricKey (.stat statAConf []))).length = 1
      ∧ ∃ j, j < s.metrics.length
        ∧ metricKey (s.entryAt j).metric = metricKey (.stat statAConf [])
        ∧ strTruthy (s.entryAt j).tag = true
        ∧ (s.entryAt j).id = some "m1") :=
  claim_C1 statAConf statAConf [] [] [] "e" "left" "right" (by decide)
    (by decide) rfl
